import Mathlib

/-!
Verification of logs-collector-client.

A shallow embedding of the Go sources of the client
(`cmd/main.go`, `client/grpc_client.go`, `client/rest_client.go`,
`internal/logger/logger.go`) together with the parts of the Go standard
library (`time`, `log/slog`, `errors`, `fmt`) those functions call.

Conventions
* Go's `int` / `int64` / `int32` values are `Int`s; a conversion that can
  wrap is written with an explicit `% 2^w`.
* A Go function returning `(T, error)` returns `Except GoError T`.
* Go strings that are inspected byte by byte are lists of characters; every
  byte the functions below accept is ASCII, where bytes and characters
  coincide.
-/

namespace LogsCollector

/-! ## Errors (`errors.New`, `fmt.Errorf` with `%w`) -/

/-- The failure reported by `time.Parse`, a `*time.ParseError`, abstracted
to the cause of the failure (the message text is not modelled). -/
inductive ParseError where
  /-- The value does not have the shape of the layout (`errBad`). -/
  | bad
  /-- A field is outside its range (`": <what> out of range"`). -/
  | outOfRange (what : String)
  /-- Text remains after the layout is exhausted (`": extra text: ..."`). -/
  | extraText
  deriving DecidableEq, Repr

/-- Go error values built by the program.

* `sentinel text` is a package-level `errors.New(text)`;
* `parse e` is the `*time.ParseError` of `time.Parse`;
* `transport text` is an error handed back by the HTTP or gRPC machinery;
* `wrap pre cause post` is `fmt.Errorf(pre + "%w" + post', cause, ...)`, where
  `post` is the already formatted text that follows the wrapped error. -/
inductive GoError where
  | sentinel (text : String)
  | parse (e : ParseError)
  | transport (text : String)
  | wrap (pre : String) (cause : GoError) (post : String)
  deriving DecidableEq, Repr

/-- The method `Unwrap` of the value `fmt.Errorf` returns. -/
def GoError.Unwrap : GoError → Option GoError
  | .wrap _ cause _ => some cause
  | _ => none

/-- The function `errors.Is(err, target)`: `target` is `err` or is reached
from `err` by unwrapping. -/
def GoError.Is : GoError → GoError → Bool
  | .wrap pre cause post, target =>
      decide (GoError.wrap pre cause post = target) || cause.Is target
  | e, target => decide (e = target)

/-! ## `cmd/main.go` -/

/-- The sentinel `ErrInvalidAction`. -/
def ErrInvalidAction : GoError := .sentinel "invalid action"

/-- The sentinel `ErrIntOverflow`. -/
def ErrIntOverflow : GoError := .sentinel "value overflows int32"

/-- The value of a two's complement 32-bit pattern: conversion to `int32`. -/
def toInt32 (x : Int) : Int := (x + 2 ^ 31) % 2 ^ 32 - 2 ^ 31

/-- Go's unary `^` (bitwise complement) on an `int32` operand. -/
def complInt32 (x : Int) : Int := toInt32 (-x - 1)

/-- The function `safeIntToInt32` of `cmd/main.go`:
```go
if n > int(^int32(0)) || n < int(^int32(0)+1) {
    return 0, fmt.Errorf("%w: %d", ErrIntOverflow, n)
}
return int32(n), nil
``` -/
def safeIntToInt32 (n : Int) : Except GoError Int :=
  if n > complInt32 0 ∨ n < complInt32 0 + 1 then
    .error (.wrap "" ErrIntOverflow (": " ++ toString n))
  else
    .ok (toInt32 n)

/-- The struct `config.Config` (`internal/config/config.go`): the fields and their
`envDefault` values. -/
structure Config where
  GRPCEndpoint : String := "localhost:50051"
  RESTEndpoint : String := "http://localhost:8080"
  DefaultLimit : Int := 10
  DefaultOffset : Int := 0
  deriving Repr

/-! ## `log/slog` as used by `internal/logger/logger.go` -/

/-- The type `slog.Level` is an integer; larger is more severe. -/
abbrev Level := Int

/-- The constant `slog.LevelDebug`. -/
def LevelDebug : Level := -4
/-- The constant `slog.LevelInfo`. -/
def LevelInfo : Level := 0
/-- The constant `slog.LevelWarn`. -/
def LevelWarn : Level := 4
/-- The constant `slog.LevelError`. -/
def LevelError : Level := 8

/-- An `io.Writer` the logger writes to: standard output or a caller
supplied buffer, identified by a number. -/
inductive Writer where
  | Stdout
  | Buffer (id : Nat)
  deriving DecidableEq, Repr

/-- A `slog.Value` of a kind other than group: strings, integers, booleans,
and any other Go value (described by a text). -/
inductive Value where
  | str (s : String)
  | int (i : Int)
  | bool (b : Bool)
  | other (text : String)
  deriving DecidableEq, Repr

/-- The struct `slog.Attr`: a key and a value. -/
structure Attr where
  Key : String
  Value : Value
  deriving DecidableEq, Repr

/-- A Go value passed in a variadic `args ...any`, by the three cases
`argsToAttr` distinguishes: a `string`, an `slog.Attr`, anything else. -/
inductive Any where
  | string (s : String)
  | attr (a : Attr)
  | value (v : Value)
  deriving DecidableEq, Repr

/-- The function `slog.AnyValue` on an argument. -/
def Any.toValue : Any → Value
  | .string s => .str s
  | .attr a => .other ("slog.Attr " ++ a.Key)
  | .value v => v

/-- The constant `badKey` of `log/slog`. -/
def badKey : String := "!BADKEY"

/-- The loop of `Record.Add` over `argsToAttr`: a string followed by a value
is a key/value pair, a lone trailing string and a non-string value get the
key `!BADKEY`, an `slog.Attr` stands for itself. -/
def argsToAttrs : List Any → List Attr
  | [] => []
  | [.string x] => [⟨badKey, .str x⟩]
  | .string x :: v :: rest => ⟨x, v.toValue⟩ :: argsToAttrs rest
  | .attr a :: rest => a :: argsToAttrs rest
  | .value v :: rest => ⟨badKey, v⟩ :: argsToAttrs rest

/-- The struct `slog.Record` as handed to the handler: level, message and
attributes in order (the time stamp and the program counter are left out). -/
structure Record where
  Level : LogsCollector.Level
  Message : String
  Attrs : List Attr
  deriving DecidableEq, Repr

/-- One write of a record to a writer. -/
abbrev WriteEvent := Writer × Record

/-- The value `slog.New(slog.NewJSONHandler(w, &slog.HandlerOptions{Level: level}))`:
a logger over a JSON handler, determined by its writer and minimum level. -/
structure SlogLogger where
  w : Writer
  level : Level
  deriving DecidableEq, Repr

/-- The method `(*slog.Logger).log`: nothing is done unless the handler is
enabled for the level (`level >= opts.Level`); otherwise one record with the
attributes of `args` is handled, i.e. written to the handler's writer. -/
def SlogLogger.log (l : SlogLogger) (level : Level) (msg : String)
    (args : List Any) : List WriteEvent :=
  if level ≥ l.level then [(l.w, ⟨level, msg, argsToAttrs args⟩)] else []

/-- The method `(*slog.Logger).Debug`. -/
def SlogLogger.Debug (l : SlogLogger) (msg : String) (args : List Any) :=
  l.log LevelDebug msg args
/-- The method `(*slog.Logger).Info`. -/
def SlogLogger.Info (l : SlogLogger) (msg : String) (args : List Any) :=
  l.log LevelInfo msg args
/-- The method `(*slog.Logger).Warn`. -/
def SlogLogger.Warn (l : SlogLogger) (msg : String) (args : List Any) :=
  l.log LevelWarn msg args
/-- The method `(*slog.Logger).Error`. -/
def SlogLogger.Error (l : SlogLogger) (msg : String) (args : List Any) :=
  l.log LevelError msg args

/-! ## `internal/logger/logger.go` -/

/-- A Go `error` interface value as the logger uses it: the only method
called on it is `Error()`. -/
structure ErrorValue where
  Error : String
  deriving DecidableEq, Repr

/-- The struct `LoggerImpl` (the mutex is not part of the sequential state).
The field `slog` is a pointer and may be nil. -/
structure LoggerImpl where
  slog : Option SlogLogger
  writer : Writer
  level : Level
  deriving DecidableEq, Repr

/-- The method `rebuildLogger`: a new JSON handler over the current writer
and level replaces the emitter. -/
def LoggerImpl.rebuildLogger (logger : LoggerImpl) : LoggerImpl :=
  { logger with slog := some ⟨logger.writer, logger.level⟩ }

/-- The type `Option` of the package: a function applied to the logger
under construction. -/
abbrev LoggerOption := LoggerImpl → LoggerImpl

/-- The option `WithWriter`. -/
def WithWriter (w : Writer) : LoggerOption :=
  fun logger => ({ logger with writer := w } : LoggerImpl).rebuildLogger

/-- The option `WithLevel`. -/
def WithLevel (level : Level) : LoggerOption :=
  fun logger => ({ logger with level := level } : LoggerImpl).rebuildLogger

/-- The constructor `NewLogger`: defaults (standard output, level Info, no
emitter), the options in order, then a rebuild. -/
def NewLogger (options : List LoggerOption) : LoggerImpl :=
  (options.foldl (fun logger opt => opt logger)
    ({ writer := .Stdout, level := LevelInfo, slog := none } : LoggerImpl)).rebuildLogger

/-- The method `SetLevel`. -/
def LoggerImpl.SetLevel (logger : LoggerImpl) (level : Level) : LoggerImpl :=
  ({ logger with level := level } : LoggerImpl).rebuildLogger

/-- The method `Debug`; `none` is the nil-pointer panic of a logger whose
emitter was never built. -/
def LoggerImpl.Debug (logger : LoggerImpl) (msg : String) (args : List Any) :
    Option (List WriteEvent) :=
  logger.slog.map (fun l => l.Debug msg args)

/-- The method `Info`. -/
def LoggerImpl.Info (logger : LoggerImpl) (msg : String) (args : List Any) :
    Option (List WriteEvent) :=
  logger.slog.map (fun l => l.Info msg args)

/-- The method `Warn`. -/
def LoggerImpl.Warn (logger : LoggerImpl) (msg : String) (args : List Any) :
    Option (List WriteEvent) :=
  logger.slog.map (fun l => l.Warn msg args)

/-- The method `Error`:
```go
if err != nil {
    args = append(args, "error", err.Error())
}
logger.slog.Error(msg, args...)
``` -/
def LoggerImpl.Error (logger : LoggerImpl) (msg : String)
    (err : Option ErrorValue) (args : List Any) : Option (List WriteEvent) :=
  let args : List Any := match err with
    | some e => args ++ [Any.string "error", Any.string e.Error]
    | none => args
  logger.slog.map (fun l => l.Error msg args)

/-- A call of one of the four logging methods; a call of `Error` carries its
cause, which may be nil. -/
inductive Call where
  | Debug
  | Info
  | Warn
  | Error (err : Option ErrorValue)
  deriving DecidableEq, Repr

/-- The severity a call logs at. -/
def Call.severity : Call → Level
  | .Debug => LevelDebug
  | .Info => LevelInfo
  | .Warn => LevelWarn
  | .Error _ => LevelError

/-- The argument list a call hands to the emitter: `Error` with a non-nil
cause appends the pair `"error", err.Error()`. -/
def Call.args : Call → List Any → List Any
  | .Error (some e), args => args ++ [Any.string "error", Any.string e.Error]
  | _, args => args

/-- A call of one of the four methods on a logger. -/
def LoggerImpl.call (logger : LoggerImpl) (c : Call) (msg : String)
    (args : List Any) : Option (List WriteEvent) :=
  match c with
  | .Debug => logger.Debug msg args
  | .Info => logger.Info msg args
  | .Warn => logger.Warn msg args
  | .Error err => logger.Error msg err args

/-- The number of attributes of a record with a given key. -/
def Record.countKey (r : Record) (key : String) : Nat :=
  (r.Attrs.filter (fun a => a.Key == key)).length

/-- An argument list that `argsToAttr` consumes without a dangling key: a
sequence of `key, value` pairs, `slog.Attr`s and non-string values. -/
def complete : List Any → Bool
  | [] => true
  | [.string _] => false
  | .string _ :: _ :: rest => complete rest
  | .attr _ :: rest => complete rest
  | .value _ :: rest => complete rest

/-! ## The Go standard library package `time`, for the layout `time.RFC3339`

The functions below follow `time/time.go`, `time/format.go` and
`time/format_rfc3339.go` of the Go releases with the strict RFC 3339 fast
path in `time.Parse` (Go 1.20 to 1.22). A `string` is a `List Char`, a slice
`s[a:b]` is `(s.take b).drop a`. -/

/-- Conversion of an integer to `uint64`. -/
def toUint64 (x : Int) : Nat := (x % 2 ^ 64).toNat

/-- Conversion of an integer to `int64`. -/
def toInt64 (x : Int) : Int := (x + 2 ^ 63) % 2 ^ 64 - 2 ^ 63

/-- The constant `secondsPerDay`. -/
def secondsPerDay : Nat := 86400

/-- The constant `daysPer400Years`. -/
def daysPer400Years : Nat := 365 * 400 + 97

/-- The constant `daysPer100Years`. -/
def daysPer100Years : Nat := 365 * 100 + 24

/-- The constant `daysPer4Years`. -/
def daysPer4Years : Nat := 365 * 4 + 1

/-- The year of the absolute epoch; it is `1` modulo `400`. -/
def absoluteZeroYear : Int := -292277022399

/-- Seconds from the internal epoch (year 1) to the Unix epoch. -/
def unixToInternal : Int := (1969 * 365 + 1969 / 4 - 1969 / 100 + 1969 / 400) * 86400

/-- The constant `internalToUnix`. -/
def internalToUnix : Int := -unixToInternal

/-- Seconds from the absolute epoch to the internal epoch,
`(absoluteZeroYear - internalYear) * 365.2425 * secondsPerDay`. -/
def absoluteToInternal : Int := (absoluteZeroYear - 1) * 31556952

/-- The constant `internalToAbsolute`. -/
def internalToAbsolute : Int := -absoluteToInternal

/-- The table `daysBefore`: days in a non-leap year before month `m + 1`. -/
def daysBefore : List Nat := [0, 31, 59, 90, 120, 151, 181, 212, 243, 273, 304, 334, 365]

/-- The function `isLeap`; a test `x % n == 0` does not depend on the
rounding of `%`. -/
def isLeap (year : Int) : Bool :=
  year % 4 == 0 && (year % 100 != 0 || year % 400 == 0)

/-- The function `daysIn`, called with a month from 1 to 12. -/
def daysIn (m : Int) (year : Int) : Int :=
  if m == 2 && isLeap year then 29
  else (daysBefore.getD m.toNat 0 : Int) - daysBefore.getD (m - 1).toNat 0

/-- The function `norm`: `(hi, lo)` with `lo` brought into `[0, base)`. Both
divisions have non-negative operands, where Go and Lean round alike. -/
def norm (hi lo base : Int) : Int × Int :=
  let (hi, lo) :=
    if lo < 0 then
      let n := (-lo - 1) / base + 1
      (hi - n, lo + n * base)
    else (hi, lo)
  if lo ≥ base then
    let n := lo / base
    (hi + n, lo - n * base)
  else (hi, lo)

/-- The function `daysSinceEpoch`. -/
def daysSinceEpoch (year : Int) : Nat :=
  let y := toUint64 (toInt64 (year - absoluteZeroYear))
  let n := y / 400
  let y := y - 400 * n
  let d := daysPer400Years * n
  let n := y / 100
  let y := y - 100 * n
  let d := d + daysPer100Years * n
  let n := y / 4
  let y := y - 4 * n
  let d := d + daysPer4Years * n
  let n := y
  (d + 365 * n) % 2 ^ 64

/-- A `time.Time`: the Unix seconds, the nanoseconds within the second and
the offset of its location in seconds east of UTC. -/
structure Time where
  unix : Int
  nsec : Int
  offset : Int
  deriving DecidableEq, Repr

/-- The function `time.Date` for the location UTC. -/
def Date (year month day hour min sec nsec : Int) : Time :=
  let m := month - 1
  let (year, m) := norm year m 12
  let month := m + 1
  let (sec, nsec) := norm sec nsec 1000000000
  let (min, sec) := norm min sec 60
  let (hour, min) := norm hour min 60
  let (day, hour) := norm day hour 24
  let d := daysSinceEpoch year
  let d := d + daysBefore.getD (month - 1).toNat 0
  let d := if isLeap year && month ≥ 3 then d + 1 else d
  let d : Nat := toUint64 ((d : Int) + (day - 1))
  let abs : Nat := (d * secondsPerDay) % 2 ^ 64
  let abs : Nat := toUint64 ((abs : Int) + (hour * 3600 + min * 60 + sec))
  let unix := toInt64 (toInt64 abs + (absoluteToInternal + internalToUnix))
  ⟨unix, nsec, 0⟩

/-- The method `addSec`; the saturation on overflow of the internal
seconds counter is kept. -/
def Time.addSec (t : Time) (d : Int) : Time :=
  let ext := toInt64 (t.unix + unixToInternal)
  let sum := toInt64 (ext + d)
  let ext := if decide (sum > ext) == decide (d > 0) then sum
    else if d > 0 then 2 ^ 63 - 1 else -(2 ^ 63 - 1)
  { t with unix := toInt64 (ext + internalToUnix) }

/-- The function `time.Unix` followed by `UTC()`. -/
def Unix (sec nsec : Int) : Time :=
  let (sec, nsec) :=
    if nsec < 0 ∨ nsec ≥ 1000000000 then
      let n := Int.tdiv nsec 1000000000
      let sec := toInt64 (sec + n)
      let nsec := nsec - n * 1000000000
      if nsec < 0 then (toInt64 (sec - 1), nsec + 1000000000) else (sec, nsec)
    else (sec, nsec)
  ⟨sec, nsec, 0⟩

/-- The method `abs` for a time in UTC: seconds since the absolute epoch. -/
def Time.abs (t : Time) : Nat :=
  toUint64 (t.unix + (unixToInternal + internalToAbsolute))

/-- The function `absDate` up to the point where it returns for
`full = false`: the year and the day within the year of an absolute time. -/
def absYday (abs : Nat) : Int × Nat :=
  let d := abs / secondsPerDay
  let n := d / daysPer400Years
  let y := 400 * n
  let d := d - daysPer400Years * n
  let n := d / daysPer100Years
  let n := n - n / 4
  let y := y + 100 * n
  let d := d - daysPer100Years * n
  let n := d / daysPer4Years
  let y := y + 4 * n
  let d := d - daysPer4Years * n
  let n := d / 365
  let n := n - n / 4
  let y := y + n
  let d := d - 365 * n
  (toInt64 (toInt64 y + absoluteZeroYear), d)

/-- The rest of `absDate` (`full = true`): month and day of the month from
the day within the year. -/
def monthDay (leap : Bool) (yday : Nat) : Nat × Nat :=
  if leap ∧ yday = 31 + 29 - 1 then (2, 29)
  else
    let day := if leap ∧ yday > 31 + 29 - 1 then yday - 1 else yday
    let month := day / 31
    let e := daysBefore.getD (month + 1) 0
    let (month, begin) :=
      if day ≥ e then (month + 1, e) else (month, daysBefore.getD month 0)
    (month + 1, day - begin + 1)

/-- The function `absDate` with `full = true`: year, month and day of an
absolute time. -/
def absDate (abs : Nat) : Int × Int × Int :=
  let yy := absYday abs
  let md := monthDay (isLeap yy.1) yy.2
  (yy.1, md.1, md.2)

/-- The function `absClock`. -/
def absClock (abs : Nat) : Nat × Nat × Nat :=
  let sec := abs % secondsPerDay
  let hour := sec / 3600
  let sec := sec - hour * 3600
  let min := sec / 60
  let sec := sec - min * 60
  (hour, min, sec)

/-- The decimal digits of `u`, most significant first (`fuel` bounds the
number of digits). -/
def digits : Nat → Nat → List Char
  | 0, _ => []
  | fuel + 1, u =>
    if u < 10 then [Char.ofNat (48 + u)]
    else digits fuel (u / 10) ++ [Char.ofNat (48 + u % 10)]

/-- The function `appendInt`: a minus sign for a negative `x`, then the
decimal digits of its magnitude padded with zeros to `width`. -/
def appendInt (b : List Char) (x : Int) (width : Nat) : List Char :=
  let b := if x < 0 then b ++ ['-'] else b
  let u : Nat := toUint64 (if x < 0 then -x else x)
  let ds := digits 20 u
  b ++ List.replicate (width - ds.length) '0' ++ ds

/-- The method `appendFormatRFC3339` without nanoseconds, which
`Format(time.RFC3339)` runs, for a time in UTC. -/
def Time.Format (t : Time) : List Char :=
  let abs := t.abs
  let date := absDate abs
  let b := appendInt [] date.1 4
  let b := b ++ ['-']
  let b := appendInt b date.2.1 2
  let b := b ++ ['-']
  let b := appendInt b date.2.2 2
  let b := b ++ ['T']
  let clock := absClock abs
  let b := appendInt b clock.1 2
  let b := b ++ [':']
  let b := appendInt b clock.2.1 2
  let b := b ++ [':']
  let b := appendInt b clock.2.2 2
  b ++ ['Z']

/-! ### Parsing -/

/-- The function `isDigit`. -/
def isDigit (s : List Char) (i : Nat) : Bool :=
  match s.get? i with
  | none => false
  | some c => decide ('0' ≤ c) && decide (c ≤ '9')

/-- The numeric value `c - '0'` of a byte. -/
def digitVal (c : Char) : Int := (c.toNat : Int) - 48

/-- The function `commaOrPeriod`. -/
def commaOrPeriod (c : Char) : Bool := c == '.' || c == ','

/-- The function `getnum`: one or two leading digits (`fixed` demands two). -/
def getnum (s : List Char) (fixed : Bool) : Except ParseError (Int × List Char) :=
  if !isDigit s 0 then .error .bad
  else if !isDigit s 1 then
    if fixed then .error .bad
    else .ok (digitVal (s.getD 0 '0'), s.drop 1)
  else .ok (digitVal (s.getD 0 '0') * 10 + digitVal (s.getD 1 '0'), s.drop 2)

/-- The function `leadingInt`: the value of the leading digits and the
rest; `none` on overflow. -/
def leadingInt : List Char → Nat → Option (Nat × List Char)
  | [], x => some (x, [])
  | c :: rest, x =>
    if c < '0' ∨ c > '9' then some (x, c :: rest)
    else if x > 2 ^ 63 / 10 then none
    else
      let x := x * 10 + (c.toNat - 48)
      if x > 2 ^ 63 then none else leadingInt rest x

/-- The function `atoi`. -/
def atoi (s : List Char) : Except ParseError Int :=
  let (neg, s) := match s with
    | '-' :: rest => (true, rest)
    | '+' :: rest => (false, rest)
    | _ => (false, s)
  match leadingInt s 0 with
  | none => .error .bad
  | some (q, rem) =>
    if rem.length > 0 then .error .bad
    else .ok (if neg then -toInt64 q else toInt64 q)

/-- The number of leading bytes of `s` from index `n` on that are digits,
added to `n`: the loop `for ; n < len(s) && isDigit(s, n); n++ {}`. -/
def digitRun (s : List Char) (n : Nat) : Nat :=
  n + ((s.drop n).takeWhile (fun c => decide ('0' ≤ c) && decide (c ≤ '9'))).length

/-- The function `parseNanoseconds` on `value[:nbytes]`, a period or comma
followed by digits; the digits after the ninth are dropped. -/
def parseNanoseconds (value : List Char) (nbytes : Nat) : Except ParseError Int :=
  if !commaOrPeriod (value.getD 0 ' ') then .error .bad
  else
    let (value, nbytes) := if nbytes > 10 then (value.take 10, 10) else (value, nbytes)
    match atoi ((value.take nbytes).drop 1) with
    | .error e => .error e
    | .ok ns =>
      if ns < 0 then .error (.outOfRange "fractional second")
      else .ok (ns * 10 ^ (10 - nbytes))

/-- The closure `parseUint` of `parseRFC3339`: the digits of `s` as a number
within `[min, max]`; `none` where the closure clears `ok`. -/
def parseUint (s : List Char) (min max : Int) : Option Int :=
  if s.all (fun c => decide ('0' ≤ c) && decide (c ≤ '9')) then
    let x := s.foldl (fun x c => x * 10 + digitVal c) 0
    if x < min ∨ max < x then none else some x
  else none

/-- The function `parseRFC3339`, the strict parser `time.Parse` tries first;
`none` is its result `false`. -/
def parseRFC3339 (s : List Char) : Option Time :=
  if s.length < 19 then none else
  match parseUint ((s.take 4).drop 0) 0 9999 with
  | none => none
  | some year =>
  match parseUint ((s.take 7).drop 5) 1 12 with
  | none => none
  | some month =>
  match parseUint ((s.take 10).drop 8) 1 (daysIn month year) with
  | none => none
  | some day =>
  match parseUint ((s.take 13).drop 11) 0 23 with
  | none => none
  | some hour =>
  match parseUint ((s.take 16).drop 14) 0 59 with
  | none => none
  | some min =>
  match parseUint ((s.take 19).drop 17) 0 59 with
  | none => none
  | some sec =>
  if !(s.getD 4 ' ' == '-' && s.getD 7 ' ' == '-' && s.getD 10 ' ' == 'T'
      && s.getD 13 ' ' == ':' && s.getD 16 ' ' == ':') then none else
  let s := s.drop 19
  let (nsec, s) :=
    if s.length ≥ 2 && s.getD 0 ' ' == '.' && isDigit s 1 then
      let n := digitRun s 2
      (match parseNanoseconds s n with
        | .ok ns => ns
        | .error _ => 0, s.drop n)
    else (0, s)
  let t := Date year month day hour min sec nsec
  if s.length ≠ 1 ∨ s.getD 0 ' ' ≠ 'Z' then
    if s.length ≠ 6 then none else
    match parseUint ((s.take 3).drop 1) 0 23 with
    | none => none
    | some hr =>
    match parseUint ((s.take 6).drop 4) 0 59 with
    | none => none
    | some mm =>
    if !((s.getD 0 ' ' == '-' || s.getD 0 ' ' == '+') && s.getD 3 ' ' == ':') then none else
    let zoneOffset := (hr * 60 + mm) * 60
    let zoneOffset := if s.getD 0 ' ' == '-' then zoneOffset * -1 else zoneOffset
    some { t.addSec (-zoneOffset) with offset := zoneOffset }
  else some t

/-- The function `skip` for a prefix without spaces, as the literal parts
of `time.RFC3339` are. -/
def skip : List Char → List Char → Except ParseError (List Char)
  | value, [] => .ok value
  | [], _ :: _ => .error .bad
  | v :: value, p :: pre => if v ≠ p then .error .bad else skip value pre

/-- The case `stdISO8601ColonTZ` (`Z07:00`) of `parse`: `Z`, or a sign, two
digits, a colon and two digits. The result is the offset in seconds, `none`
for `Z`, and the rest of the value. -/
def parseZone (value : List Char) : Except ParseError (Option Int × List Char) :=
  if value.length ≥ 1 && value.getD 0 ' ' == 'Z' then .ok (none, value.drop 1)
  else if value.length < 6 then .error .bad
  else if value.getD 3 ' ' ≠ ':' then .error .bad
  else
    let sign := value.getD 0 ' '
    let hour := (value.take 3).drop 1
    let min := (value.take 6).drop 4
    let value := value.drop 6
    let (hr, err) : Int × Bool := match getnum hour true with
      | .ok (x, _) => (x, false)
      | .error _ => (0, true)
    let (mm, err) : Int × Bool :=
      if err then (0, true) else match getnum min true with
        | .ok (x, _) => (x, false)
        | .error _ => (0, true)
    let rangeErrString := if hr > 24 then "time zone offset hour" else ""
    let rangeErrString := if mm > 60 then "time zone offset minute" else rangeErrString
    let zoneOffset := (hr * 60 + mm) * 60 + 0
    let (zoneOffset, err) :=
      if sign == '+' then (zoneOffset, err)
      else if sign == '-' then (-zoneOffset, err)
      else (zoneOffset, true)
    if rangeErrString ≠ "" then .error (.outOfRange rangeErrString)
    else if err then .error .bad
    else .ok (some zoneOffset, value)

/-- The function `parse` run on the layout `time.RFC3339`
(`2006-01-02T15:04:05Z07:00`), the general parser `time.Parse` falls back
to. -/
def parse (value : List Char) : Except ParseError Time :=
  -- stdLongYear
  if value.length < 4 || !isDigit value 0 then .error .bad else
  match atoi (value.take 4) with
  | .error e => .error e
  | .ok year =>
  match skip (value.drop 4) ['-'] with
  | .error e => .error e
  | .ok value =>
  -- stdZeroMonth
  match getnum value true with
  | .error e => .error e
  | .ok (month, value) =>
  if month ≤ 0 ∨ 12 < month then .error (.outOfRange "month") else
  match skip value ['-'] with
  | .error e => .error e
  | .ok value =>
  -- stdZeroDay
  match getnum value true with
  | .error e => .error e
  | .ok (day, value) =>
  match skip value ['T'] with
  | .error e => .error e
  | .ok value =>
  -- stdHour
  match getnum value false with
  | .error e => .error e
  | .ok (hour, value) =>
  if hour < 0 ∨ 24 ≤ hour then .error (.outOfRange "hour") else
  match skip value [':'] with
  | .error e => .error e
  | .ok value =>
  -- stdZeroMinute
  match getnum value true with
  | .error e => .error e
  | .ok (min, value) =>
  if min < 0 ∨ 60 ≤ min then .error (.outOfRange "minute") else
  match skip value [':'] with
  | .error e => .error e
  | .ok value =>
  -- stdZeroSecond
  match getnum value true with
  | .error e => .error e
  | .ok (sec, value) =>
  if sec < 0 ∨ 60 ≤ sec then .error (.outOfRange "second") else
  -- a fractional second in the value though the layout has none
  match (if value.length ≥ 2 && commaOrPeriod (value.getD 0 ' ') && isDigit value 1 then
      let n := digitRun value 2
      match parseNanoseconds value n with
      | .error e => .error e
      | .ok nsec => .ok (nsec, value.drop n)
    else .ok (0, value) : Except ParseError (Int × List Char)) with
  | .error e => .error e
  | .ok (nsec, value) =>
  -- stdISO8601ColonTZ
  match parseZone value with
  | .error e => .error e
  | .ok (zone, value) =>
  if value.length ≠ 0 then .error .extraText else
  if day < 1 ∨ day > daysIn month year then .error (.outOfRange "day") else
  match zone with
  | none => .ok (Date year month day hour min sec nsec)
  | some zoneOffset =>
    .ok { (Date year month day hour min sec nsec).addSec (-zoneOffset) with
          offset := zoneOffset }

/-- The function `time.Parse(time.RFC3339, value)`. -/
def Parse (value : List Char) : Except ParseError Time :=
  match parseRFC3339 value with
  | some t => .ok t
  | none => parse value

/-! ## `timestamppb` -/

/-- The message `timestamppb.Timestamp`. -/
structure Timestamp where
  Seconds : Int
  Nanos : Int
  deriving DecidableEq, Repr

/-- The constructor `timestamppb.New`:
`Timestamp{Seconds: int64(t.Unix()), Nanos: int32(t.Nanosecond())}`. -/
def Timestamp.New (t : Time) : Timestamp := ⟨toInt64 t.unix, toInt32 t.nsec⟩

/-- The method `AsTime`: `time.Unix(x.GetSeconds(), x.GetNanos()).UTC()`. -/
def Timestamp.AsTime (x : Timestamp) : Time := Unix x.Seconds x.Nanos

/-! ## Texts and day counts used to state the theorems -/

/-- The decimal digit character of `n % 10`. -/
def digitChar (n : Nat) : Char := Char.ofNat (48 + n % 10)

/-- Two decimal digits. -/
def pad2 (n : Nat) : List Char := [digitChar (n / 10), digitChar n]

/-- Four decimal digits. -/
def pad4 (n : Nat) : List Char :=
  [digitChar (n / 1000), digitChar (n / 100), digitChar (n / 10), digitChar n]

/-- The characters of the RFC 3339 text `YYYY-MM-DDTHH:MM:SSZ`: four digits
of the year, two digits of each other field, the separators `-`, `T` and `:`
and the UTC designator `Z`. -/
def utcText (y m d h mi s : Nat) : List Char :=
  pad4 y ++ '-' :: pad2 m ++ '-' :: pad2 d ++ 'T' :: pad2 h ++ ':' :: pad2 mi ++ ':' :: pad2 s
    ++ ['Z']

/-- The day within the year of a month and day: the days `Date` adds to
those of the year. -/
def ydayOf (leap : Bool) (m d : Nat) : Nat :=
  daysBefore.getD (m - 1) 0 + (if leap && decide (m ≥ 3) then 1 else 0) + (d - 1)

/-- The number of days of a month, by leap year flag. -/
def daysInNat (leap : Bool) (m : Nat) : Nat :=
  if m == 2 && leap then 29 else daysBefore.getD m 0 - daysBefore.getD (m - 1) 0

/-- The RFC 3339 text `YYYY-MM-DDTHH:MM:SSZ` as a string. -/
def rfc3339UTC (y m d h mi s : Nat) : String := String.mk (utcText y m d h mi s)

/-- Days from 0000-01-01 to the first day of year `y` in the proleptic
Gregorian calendar: 365 days a year and one more for every leap year before
`y`. -/
def daysBeforeYear (y : Nat) : Nat :=
  365 * y + (y + 3) / 4 - (y + 99) / 100 + (y + 399) / 400

/-- The instant of a date and time of day in UTC, in seconds from
1970-01-01T00:00:00Z (day 719528 from 0000-01-01), counted independently of
`time.Date`. -/
def unixSeconds (y m d h mi s : Nat) : Int :=
  ((daysBeforeYear y + ydayOf (isLeap y) m d : Nat) : Int) * 86400
    + (h * 3600 + mi * 60 + s : Nat) - 719528 * 86400

/-- The decimal value of a list of digits, continuing from `x`. -/
def digitsValue (ds : List (Fin 10)) (x : Nat) : Nat :=
  ds.foldl (fun a d => a * 10 + d.val) x

/-- The characters `YYYY-MM-DDTHH:MM:SS` of a date and time of day: `utcText`
without the designator `Z`. -/
def dateTimeText (y m d h mi s : Nat) : List Char :=
  pad4 y ++ '-' :: pad2 m ++ '-' :: pad2 d ++ 'T' :: pad2 h ++ ':' :: pad2 mi ++ ':' :: pad2 s

/-- The time offset of an RFC 3339 text: `Z`, `+hh:mm` (east of UTC) or
`-hh:mm` (west of UTC). -/
inductive Zone where
  | utc
  | east (hh mm : Nat)
  | west (hh mm : Nat)
  deriving DecidableEq, Repr

/-- The offsets RFC 3339 writes: hours 00 to 23 and minutes 00 to 59. -/
def Zone.Valid : Zone → Prop
  | .utc => True
  | .east hh mm => hh ≤ 23 ∧ mm ≤ 59
  | .west hh mm => hh ≤ 23 ∧ mm ≤ 59

/-- The offset in seconds east of UTC: local time minus UTC. -/
def Zone.offset : Zone → Int
  | .utc => 0
  | .east hh mm => ((hh * 60 + mm) * 60 : Nat)
  | .west hh mm => -((hh * 60 + mm) * 60 : Nat)

/-- The characters of an offset: `Z`, or the sign, two digits of hours, a
colon and two digits of minutes. -/
def Zone.text : Zone → List Char
  | .utc => ['Z']
  | .east hh mm => '+' :: pad2 hh ++ ':' :: pad2 mm
  | .west hh mm => '-' :: pad2 hh ++ ':' :: pad2 mm

/-- The characters of a fractional second: nothing for no digits, else a
period and the digits. -/
def fracText : List (Fin 10) → List Char
  | [] => []
  | d :: ds => '.' :: (d :: ds).map fun d => digitChar d.val

/-- The nanoseconds of a fractional second: its first nine digits, padded with
zeros on the right to nine; the digits after the ninth do not count. -/
def fracNanos (ds : List (Fin 10)) : Int :=
  (digitsValue (ds.take 9) 0 * 10 ^ (9 - (ds.take 9).length) : Nat)

/-- The strict RFC 3339 text of a date, a time of day, the digits of a
fractional second (none for whole seconds) and an offset, such as
`2024-01-01T09:00:00.5+09:00`. -/
def rfc3339Text (y m d h mi s : Nat) (frac : List (Fin 10)) (z : Zone) : String :=
  String.mk (dateTimeText y m d h mi s ++ fracText frac ++ z.text)

/-! ## `internal/model/log.go` and the messages of the RPC schema -/

/-- The struct `model.Log`. -/
structure model.Log where
  ID : String
  TraceID : String
  Timestamp : String
  Level : String
  Service : String
  Message : String
  Metadata : List (String × String)
  deriving DecidableEq, Repr

/-- The message `pb.Log`; the timestamp is a pointer and may be nil. -/
structure pb.Log where
  Id : String
  TraceId : String
  Timestamp : Option Timestamp
  Level : String
  Service : String
  Message : String
  Metadata : List (String × String)
  deriving DecidableEq, Repr

/-- The message `pb.SendLogRequest`. -/
structure pb.SendLogRequest where
  Log : Option pb.Log
  deriving DecidableEq, Repr

/-- The message `pb.GetLogsRequest`; the optional fields are pointers. -/
structure pb.GetLogsRequest where
  Service : Option String
  Level : Option String
  Limit : Int
  Offset : Int
  StartTime : Option Timestamp
  EndTime : Option Timestamp
  deriving DecidableEq, Repr

/-- The message `pb.GetLogsResponse`: a slice of pointers to `pb.Log`. -/
structure pb.GetLogsResponse where
  Logs : List (Option pb.Log)
  deriving DecidableEq, Repr

/-- The interface `pb.LogServiceClient`: what the remote service answers to
a `SendLog` and to a `GetLogs` request. The response of a successful `GetLogs`
call is the message the generated stub allocates, never a nil pointer. -/
structure pb.LogServiceClient where
  SendLog : pb.SendLogRequest → Except GoError Unit
  GetLogs : pb.GetLogsRequest → Except GoError pb.GetLogsResponse

/-! ## `client/grpc_client.go` -/

/-- The struct `GRPCClient` (the connection handle is left out). -/
structure GRPCClient where
  client : pb.LogServiceClient

/-- The function `parseTimestamp`:
```go
t, err := time.Parse(time.RFC3339, ts)
if err != nil {
    return nil, fmt.Errorf("invalid timestamp format: %w", err)
}
return timestamppb.New(t), nil
``` -/
def parseTimestamp (ts : String) : Except GoError Timestamp :=
  match Parse ts.toList with
  | .error err => .error (.wrap "invalid timestamp format: " (.parse err) "")
  | .ok t => .ok (Timestamp.New t)

/-- The function `formatTimestamp`:
```go
if ts == nil {
    return ""
}
return ts.AsTime().Format(time.RFC3339)
``` -/
def formatTimestamp (ts : Option Timestamp) : String :=
  match ts with
  | none => ""
  | some ts => String.mk ts.AsTime.Format

/-- The method `GRPCClient.SendLog`. The result is the returned error (or
success) together with the requests handed to the remote `SendLog`
operation, in order. -/
def GRPCClient.SendLog (c : GRPCClient) (log : model.Log) :
    Except GoError Unit × List pb.SendLogRequest :=
  match parseTimestamp log.Timestamp with
  | .error err => (.error (.wrap "failed to parse timestamp: " err ""), [])
  | .ok timestamp =>
    let req : pb.SendLogRequest :=
      { Log := some
          { Id := log.ID
            TraceId := log.TraceID
            Timestamp := some timestamp
            Level := log.Level
            Service := log.Service
            Message := log.Message
            Metadata := log.Metadata } }
    match c.client.SendLog req with
    | .error err => (.error (.wrap "failed to send log via gRPC: " err ""), [req])
    | .ok _ => (.ok (), [req])

/-- The helper `StringPtr`. -/
def StringPtr (s : String) : Option String := some s

/-- The method `GRPCClient.GetLogs`; the getters of a `pb.Log` pointer give
the zero value of the field for a nil pointer. -/
def GRPCClient.GetLogs (c : GRPCClient) (service level : String) (limit offset : Int) :
    Except GoError (List model.Log) :=
  let req : pb.GetLogsRequest :=
    { Service := StringPtr service
      Level := StringPtr level
      Limit := limit
      Offset := offset
      StartTime := none
      EndTime := none }
  match c.client.GetLogs req with
  | .error err => .error (.wrap "failed to get logs via gRPC: " err "")
  | .ok resp =>
    .ok (resp.Logs.map fun protoLog =>
      { ID := (protoLog.map (·.Id)).getD ""
        TraceID := (protoLog.map (·.TraceId)).getD ""
        Timestamp := formatTimestamp (protoLog.bind (·.Timestamp))
        Level := (protoLog.map (·.Level)).getD ""
        Service := (protoLog.map (·.Service)).getD ""
        Message := (protoLog.map (·.Message)).getD ""
        Metadata := (protoLog.map (·.Metadata)).getD [] })

/-! ## `client/rest_client.go` -/

/-- The sentinel `ErrUnexpectedHTTPStatus`. -/
def ErrUnexpectedHTTPStatus : GoError := .sentinel "unexpected HTTP status"

/-- The struct `RESTClient`. -/
structure RESTClient where
  Endpoint : String
  deriving DecidableEq, Repr

/-- The struct `sendLogRequest`, the body of `POST /api/logs`. -/
structure sendLogRequest where
  Log : model.Log
  deriving DecidableEq, Repr

/-- An `http.Request` as the client builds it. -/
structure http.Request where
  Method : String
  URL : String
  Body : Option String
  Header : List (String × String)
  deriving DecidableEq, Repr

/-- The call `req.Header.Set(key, value)`. -/
def http.Request.setHeader (req : http.Request) (key value : String) : http.Request :=
  { req with Header := (key, value) :: req.Header.filter (fun kv => kv.1 != key) }

/-- The fields of an `http.Response` the client reads. -/
structure http.Response where
  StatusCode : Int
  Status : String
  deriving DecidableEq, Repr

/-- The library calls of `RESTClient.SendLog` whose outcome lies outside the
program: `json.Marshal`, `http.NewRequestWithContext` (method, URL, body) and
`http.DefaultClient.Do`, which returns the response of the server or a
transport error. -/
structure HTTPEnv where
  Marshal : sendLogRequest → Except GoError String
  NewRequestWithContext : String → String → Option String → Except GoError http.Request
  Do : http.Request → Except GoError http.Response

/-- The constant `http.StatusOK`. -/
def http.StatusOK : Int := 200

/-- The method `RESTClient.SendLog`. -/
def RESTClient.SendLog (env : HTTPEnv) (c : RESTClient) (log : model.Log) :
    Except GoError Unit :=
  match env.Marshal { Log := log } with
  | .error err => .error (.wrap "failed to marshal log: " err "")
  | .ok body =>
    match env.NewRequestWithContext "POST" (c.Endpoint ++ "/api/logs") (some body) with
    | .error err => .error (.wrap "failed to create HTTP request: " err "")
    | .ok req =>
      match env.Do (req.setHeader "Content-Type" "application/json") with
      | .error err => .error (.wrap "HTTP request failed: " err "")
      | .ok res =>
        if res.StatusCode ≠ http.StatusOK then
          .error (.wrap "" ErrUnexpectedHTTPStatus (": " ++ res.Status))
        else .ok ()

/-- The state every constructor and `SetLevel` leave the logger in: the
emitter was built from the current writer and level. -/
def LoggerImpl.Built (logger : LoggerImpl) : Prop :=
  logger.slog = some ⟨logger.writer, logger.level⟩

/-! ## Theorems -/

/-- The two bounds `safeIntToInt32` compares against are `-1` and `0`. -/
theorem safeIntToInt32_bounds : complInt32 0 = -1 ∧ complInt32 0 + 1 = 0 := by
  decide

/-- For every input the guard of `safeIntToInt32` holds, so the function
returns the overflow error. -/
theorem safeIntToInt32_error (n : Int) :
    safeIntToInt32 n = .error (.wrap "" ErrIntOverflow (": " ++ toString n)) := by
  have h : n > complInt32 0 ∨ n < complInt32 0 + 1 := by
    obtain ⟨h1, h2⟩ := safeIntToInt32_bounds
    rw [h1]; omega
  simp [safeIntToInt32, h]

/-- C1 (evaluation of the code at the failing inputs): the default
configuration values `DefaultLimit = 10` and `DefaultOffset = 0`, both inside
the 32-bit range, are rejected by `safeIntToInt32` with the overflow error
instead of being converted to `10` and `0`. -/
theorem C1_safeIntToInt32_rejects_defaults :
    ({} : Config).DefaultLimit = 10 ∧ ({} : Config).DefaultOffset = 0 ∧
    safeIntToInt32 ({} : Config).DefaultLimit
      = .error (.wrap "" ErrIntOverflow ": 10") ∧
    safeIntToInt32 ({} : Config).DefaultOffset
      = .error (.wrap "" ErrIntOverflow ": 0") := by
  refine ⟨rfl, rfl, ?_, ?_⟩
  · exact safeIntToInt32_error 10
  · exact safeIntToInt32_error 0

/-- C2: for every 64-bit integer `n` outside the 32-bit signed range
(`n < -2^31` or `n > 2^31 - 1`), `safeIntToInt32 n` fails, the error wraps
`ErrIntOverflow` (`errors.Is` holds), and no `int32` value is returned. -/
theorem C2_safeIntToInt32_out_of_range (n : Int)
    (_hlo : -2 ^ 63 ≤ n) (_hhi : n < 2 ^ 63)
    (_hout : n < -2 ^ 31 ∨ n > 2 ^ 31 - 1) :
    (∃ e, safeIntToInt32 n = .error e ∧ e.Is ErrIntOverflow = true ∧
        e.Unwrap = some ErrIntOverflow) ∧
    ∀ v, safeIntToInt32 n ≠ .ok v := by
  refine ⟨⟨_, safeIntToInt32_error n, ?_, rfl⟩, ?_⟩
  · simp [GoError.Is, ErrIntOverflow]
  · intro v h
    rw [safeIntToInt32_error n] at h
    cases h

/-- C2 at `n = 2^31`, the first value above the range. -/
theorem C2_safeIntToInt32_out_of_range_witness :
    (∃ e, safeIntToInt32 (2 ^ 31) = .error e ∧ e.Is ErrIntOverflow = true ∧
        e.Unwrap = some ErrIntOverflow) ∧
    ∀ v, safeIntToInt32 (2 ^ 31) ≠ .ok v :=
  C2_safeIntToInt32_out_of_range (2 ^ 31) (by norm_num) (by norm_num)
    (Or.inr (by norm_num))

/-! ### The logger -/

theorem rebuildLogger_built (logger : LoggerImpl) : logger.rebuildLogger.Built := rfl

theorem NewLogger_built (options : List LoggerOption) : (NewLogger options).Built := rfl

theorem SetLevel_built (logger : LoggerImpl) (level : Level) :
    (logger.SetLevel level).Built := rfl

theorem WithWriter_level (w : Writer) (logger : LoggerImpl) :
    (WithWriter w logger).level = logger.level := rfl

theorem foldl_WithWriter_level (post : List LoggerOption)
    (hpost : ∀ o ∈ post, ∃ w, o = WithWriter w) (logger : LoggerImpl) :
    (post.foldl (fun logger opt => opt logger) logger).level = logger.level := by
  induction post generalizing logger with
  | nil => rfl
  | cons o rest ih =>
    obtain ⟨w, rfl⟩ := hpost o (List.mem_cons_self _ _)
    rw [List.foldl_cons, ih (fun o ho => hpost o (List.mem_cons_of_mem _ ho))]
    rfl

theorem NewLogger_level (pre post : List LoggerOption) (L : Level)
    (hpost : ∀ o ∈ post, ∃ w, o = WithWriter w) :
    (NewLogger (pre ++ WithLevel L :: post)).level = L := by
  have hr : ∀ lg : LoggerImpl, lg.rebuildLogger.level = lg.level := fun _ => rfl
  unfold NewLogger
  rw [List.foldl_append, List.foldl_cons, hr, foldl_WithWriter_level post hpost]
  rfl

theorem Built_call (logger : LoggerImpl) (hb : logger.Built) (c : Call)
    (msg : String) (args : List Any) :
    logger.call c msg args =
      some (if c.severity ≥ logger.level
        then [(logger.writer, ⟨c.severity, msg, argsToAttrs (c.args args)⟩)] else []) := by
  unfold LoggerImpl.Built at hb
  rcases c with _ | _ | _ | (_ | e) <;>
    simp [LoggerImpl.call, LoggerImpl.Debug, LoggerImpl.Info, LoggerImpl.Warn,
      LoggerImpl.Error, SlogLogger.Debug, SlogLogger.Info, SlogLogger.Warn,
      SlogLogger.Error, SlogLogger.log, Call.severity, Call.args, hb]

theorem argsToAttrs_append_pair (k : String) (v : Any) :
    ∀ args : List Any, complete args = true →
      argsToAttrs (args ++ [.string k, v]) = argsToAttrs args ++ [⟨k, v.toValue⟩]
  | [], _ => rfl
  | [.string _], h => by simp [complete] at h
  | .string x :: w :: rest, h => by
    have ih := argsToAttrs_append_pair k v rest (by simpa [complete] using h)
    simp [argsToAttrs, ih]
  | .attr a :: rest, h => by
    have ih := argsToAttrs_append_pair k v rest (by simpa [complete] using h)
    simp [argsToAttrs, ih]
  | .value u :: rest, h => by
    have ih := argsToAttrs_append_pair k v rest (by simpa [complete] using h)
    simp [argsToAttrs, ih]

theorem filter_key_eq_nil (key : String) :
    ∀ attrs : List Attr, (∀ a ∈ attrs, a.Key ≠ key) →
      attrs.filter (fun a => a.Key == key) = []
  | [], _ => rfl
  | a :: rest, h => by
    have ha : (a.Key == key) = false := by
      simpa using h a (List.mem_cons_self _ _)
    rw [List.filter_cons, ha]
    simpa using filter_key_eq_nil key rest (fun b hb => h b (List.mem_cons_of_mem _ hb))

/-- C5 (the claim as stated fails): `Error("m", err, "error", "x")` with
`err.Error() = "boom"` emits a record with two fields named `"error"`. -/
theorem C5_Error_duplicate_error_key :
    (NewLogger [WithWriter (.Buffer 0)]).Error "m" (some ⟨"boom"⟩)
        [.string "error", .string "x"]
      = some [(.Buffer 0,
          ⟨LevelError, "m", [⟨"error", .str "x"⟩, ⟨"error", .str "boom"⟩]⟩)] ∧
    Record.countKey
        ⟨LevelError, "m", [⟨"error", .str "x"⟩, ⟨"error", .str "boom"⟩]⟩ "error" = 2 := by
  decide

/-- The appended pair is misread after a dangling key:
`Error("m", err, "k")` emits `k="error"` and `!BADKEY=<text>` and no field
named `"error"`. -/
theorem Error_after_dangling_key :
    (NewLogger [WithWriter (.Buffer 0)]).Error "m" (some ⟨"boom"⟩) [.string "k"]
      = some [(.Buffer 0,
          ⟨LevelError, "m", [⟨"k", .str "error"⟩, ⟨badKey, .str "boom"⟩]⟩)] := by
  decide

/-- C5 (amended): for a built logger whose threshold does not exceed Error,
a non-nil cause `e`, and arguments that form a complete sequence of
key/value pairs and attributes none of which is keyed `"error"`,
`Error(msg, e, args...)` writes one record at Error severity whose attributes
are those of `args` followed by `"error" = e.Error()`; it contains exactly
one field named `"error"`. -/
theorem C5_Error_adds_one_error_field (logger : LoggerImpl) (msg : String)
    (e : ErrorValue) (args : List Any)
    (hb : logger.Built) (hlvl : logger.level ≤ LevelError)
    (hc : complete args = true)
    (hk : ∀ a ∈ argsToAttrs args, a.Key ≠ "error") :
    ∃ r : Record,
      logger.Error msg (some e) args = some [(logger.writer, r)] ∧
      r.Level = LevelError ∧ r.Message = msg ∧
      r.Attrs = argsToAttrs args ++ [⟨"error", .str e.Error⟩] ∧
      r.countKey "error" = 1 := by
  refine ⟨⟨LevelError, msg, argsToAttrs args ++ [⟨"error", .str e.Error⟩]⟩,
    ?_, rfl, rfl, rfl, ?_⟩
  · unfold LoggerImpl.Built at hb
    have h := argsToAttrs_append_pair "error" (.string e.Error) args hc
    simp only [Any.toValue] at h
    simp [LoggerImpl.Error, SlogLogger.Error, SlogLogger.log, hb, hlvl, h]
  · simp [Record.countKey, List.filter_append, filter_key_eq_nil "error" _ hk]

/-- C5 (amended) on the call of `TestLogger_ErrorWithNonNilError`. -/
theorem C5_Error_adds_one_error_field_witness :
    ∃ r : Record,
      (NewLogger [WithWriter (.Buffer 0), WithLevel LevelDebug]).Error
          "some error message" (some ⟨"something broke"⟩)
          [.string "foo", .string "bar"]
        = some [((NewLogger [WithWriter (.Buffer 0), WithLevel LevelDebug]).writer, r)] ∧
      r.Level = LevelError ∧ r.Message = "some error message" ∧
      r.Attrs = argsToAttrs [.string "foo", .string "bar"]
        ++ [⟨"error", .str "something broke"⟩] ∧
      r.countKey "error" = 1 :=
  C5_Error_adds_one_error_field
    (NewLogger [WithWriter (.Buffer 0), WithLevel LevelDebug])
    "some error message" ⟨"something broke"⟩ [.string "foo", .string "bar"]
    (NewLogger_built _) (by decide) (by decide) (by decide)

/-- C6: for a built logger, `Error(msg, nil, args...)` is the emitter's
`Error(msg, args...)` on the unchanged argument list: when Error severity is
enabled it writes one record at Error severity whose attributes are exactly
those of `args`, in order, and nothing is added. -/
theorem C6_Error_nil_adds_nothing (logger : LoggerImpl) (msg : String)
    (args : List Any) (hb : logger.Built) :
    logger.Error msg none args = logger.slog.map (fun l => l.Error msg args) ∧
    logger.Error msg none args =
      some (if LevelError ≥ logger.level
        then [(logger.writer, ⟨LevelError, msg, argsToAttrs args⟩)] else []) :=
  ⟨rfl, Built_call logger hb (.Error none) msg args⟩

/-- C6 on the call of `TestLogger_ErrorWithNil`: the record carries
`ctx=test` and nothing keyed `"error"`. -/
theorem C6_Error_nil_adds_nothing_witness :
    (NewLogger [WithWriter (.Buffer 0)]).Error "error without error" none
        [.string "ctx", .string "test"]
      = (NewLogger [WithWriter (.Buffer 0)]).slog.map
          (fun l => l.Error "error without error" [.string "ctx", .string "test"]) ∧
    (NewLogger [WithWriter (.Buffer 0)]).Error "error without error" none
        [.string "ctx", .string "test"]
      = some (if LevelError ≥ (NewLogger [WithWriter (.Buffer 0)]).level
          then [((NewLogger [WithWriter (.Buffer 0)]).writer,
            ⟨LevelError, "error without error",
              argsToAttrs [.string "ctx", .string "test"]⟩)] else []) :=
  C6_Error_nil_adds_nothing (NewLogger [WithWriter (.Buffer 0)])
    "error without error" [.string "ctx", .string "test"] (NewLogger_built _)

/-- C7: a logger constructed with `WithLevel(L)` as its last level option
(only `WithWriter` options after it) writes, on a call of Debug, Info, Warn
or Error (with or without a cause), exactly one record to its writer when
the severity of the call is at least `L`, and writes nothing otherwise. -/
theorem C7_level_filtering (pre post : List LoggerOption) (L : Level)
    (hpost : ∀ o ∈ post, ∃ w, o = WithWriter w)
    (c : Call) (msg : String) (args : List Any) :
    (NewLogger (pre ++ WithLevel L :: post)).call c msg args =
      some (if c.severity ≥ L
        then [((NewLogger (pre ++ WithLevel L :: post)).writer,
          ⟨c.severity, msg, argsToAttrs (c.args args)⟩)]
        else []) := by
  have h := Built_call _ (NewLogger_built (pre ++ WithLevel L :: post)) c msg args
  rw [NewLogger_level pre post L hpost] at h
  exact h

/-- C7 on `TestLogger_LevelFiltering`: with threshold Warn, Debug writes
nothing. -/
theorem C7_level_filtering_witness :
    (NewLogger ([WithWriter (.Buffer 0)] ++ WithLevel LevelWarn :: [])).call
        .Debug "debug message" [] =
      some (if Call.Debug.severity ≥ LevelWarn
        then [((NewLogger ([WithWriter (.Buffer 0)] ++ WithLevel LevelWarn :: [])).writer,
          ⟨Call.Debug.severity, "debug message", argsToAttrs (Call.Debug.args [])⟩)]
        else []) :=
  C7_level_filtering [WithWriter (.Buffer 0)] [] LevelWarn (by simp) .Debug
    "debug message" []

/-- The scenario of `TestLogger_LevelFiltering` evaluated: Debug and Info are
dropped, Warn and Error are written to the buffer. -/
theorem level_filtering_Warn :
    let lg := NewLogger [WithWriter (.Buffer 0), WithLevel LevelWarn]
    lg.Debug "debug message" [] = some [] ∧
    lg.Info "info message" [] = some [] ∧
    lg.Warn "warn message" [] = some [(.Buffer 0, ⟨LevelWarn, "warn message", []⟩)] ∧
    lg.Error "error message" none []
      = some [(.Buffer 0, ⟨LevelError, "error message", []⟩)] := by
  decide

/-- The writer and level after a run of `SetLevel` calls ending in `last`. -/
theorem foldl_SetLevel (levels : List Level) (last : Level) (logger : LoggerImpl) :
    ((levels ++ [last]).foldl LoggerImpl.SetLevel logger).Built ∧
    ((levels ++ [last]).foldl LoggerImpl.SetLevel logger).writer = logger.writer ∧
    ((levels ++ [last]).foldl LoggerImpl.SetLevel logger).level = last := by
  induction levels generalizing logger with
  | nil => exact ⟨rfl, rfl, rfl⟩
  | cons l rest ih =>
    obtain ⟨h1, h2, h3⟩ := ih (logger.SetLevel l)
    exact ⟨h1, h2, h3⟩

/-- C8: after any sequence of `SetLevel` calls on any logger, the writer is
the one the logger had before, and a later call of Debug, Info, Warn or Error
writes one record to that writer exactly when its severity is at least the
level of the last `SetLevel` call; earlier levels play no part. -/
theorem C8_SetLevel_last_wins (logger : LoggerImpl) (levels : List Level)
    (last : Level) (c : Call) (msg : String) (args : List Any) :
    ((levels ++ [last]).foldl LoggerImpl.SetLevel logger).writer = logger.writer ∧
    ((levels ++ [last]).foldl LoggerImpl.SetLevel logger).call c msg args =
      some (if c.severity ≥ last
        then [(logger.writer, ⟨c.severity, msg, argsToAttrs (c.args args)⟩)] else []) := by
  obtain ⟨hb, hw, hl⟩ := foldl_SetLevel levels last logger
  refine ⟨hw, ?_⟩
  rw [Built_call _ hb, hw, hl]

/-- The scenario of `TestLogger_SetLevel_Twice` evaluated: after
`SetLevel(Error)` a Debug call writes nothing; after `SetLevel(Debug)` a
Debug call is written to the buffer given at construction. -/
theorem SetLevel_twice :
    let lg := NewLogger [WithWriter (.Buffer 0)]
    (lg.SetLevel LevelError).Debug "should not appear" [] = some [] ∧
    ((lg.SetLevel LevelError).SetLevel LevelDebug).Debug "should appear" []
      = some [(.Buffer 0, ⟨LevelDebug, "should appear", []⟩)] := by
  decide

/-! ### The calendar arithmetic and the parser of the package `time` -/

theorem isLeap_mod (y : Int) : isLeap y = isLeap (y % 400) := by
  unfold isLeap
  have h4 : y % 400 % 4 = y % 4 := by omega
  have h100 : y % 400 % 100 = y % 100 := by omega
  have h400 : y % 400 % 400 = y % 400 := by omega
  rw [h4, h100, h400]

set_option maxRecDepth 100000 in
theorem isLeap_cycle : ∀ r : Fin 400,
    (isLeap (((r.val + 1 : Nat) : Int) % 400) = true ↔
      r.val % 4 = 3 ∧ (r.val % 100 / 4 ≠ 24 ∨ r.val / 100 = 3)) := by
  decide

/-- The decomposition of the year count into cycles of 400, 100, 4 and 1
years that `daysSinceEpoch` computes. -/
theorem daysSinceEpoch_eq (y : Int) (hy0 : 0 ≤ y) (hy1 : y ≤ 9999) :
    ∃ a b c e : Nat, b ≤ 3 ∧ c ≤ 24 ∧ e ≤ 3 ∧
      y + 292277022399 = 400 * a + 100 * b + 4 * c + e ∧
      (isLeap y = true ↔ e = 3 ∧ (c ≠ 24 ∨ b = 3)) ∧
      daysSinceEpoch y = 146097 * a + 36524 * b + 1461 * c + 365 * e := by
  obtain ⟨Y, hY⟩ : ∃ Y : Nat, (Y : Int) = y + 292277022399 := ⟨(y + 292277022399).toNat, by omega⟩
  have h1 : toUint64 (toInt64 (y - absoluteZeroYear)) = Y := by
    unfold toUint64 toInt64 absoluteZeroYear; omega
  have hr : Y % 400 < 400 := Nat.mod_lt _ (by norm_num)
  have e1 : Y - 400 * (Y / 400) = Y % 400 := by omega
  have e2 : Y % 400 - 100 * (Y % 400 / 100) = Y % 400 % 100 := by omega
  have e3 : Y % 400 % 100 - 4 * (Y % 400 % 100 / 4) = Y % 400 % 4 := by omega
  refine ⟨Y / 400, Y % 400 / 100, Y % 400 % 100 / 4, Y % 400 % 4,
    by omega, by omega, by omega, by omega, ?_, ?_⟩
  · have hy : y % 400 = ((Y % 400 + 1 : Nat) : Int) % 400 := by omega
    rw [isLeap_mod, hy]
    exact isLeap_cycle ⟨Y % 400, hr⟩
  · unfold daysSinceEpoch
    simp only [h1, daysPer400Years, daysPer100Years, daysPer4Years, e1, e2, e3]
    omega

/-- The cycle arithmetic of `absYday` undoes the one of `daysSinceEpoch`. -/
theorem absYday_cycles (a b c e yd tod : Nat) (hb : b ≤ 3) (hc : c ≤ 24) (he : e ≤ 3)
    (hyd : yd < 365 ∨ (yd = 365 ∧ e = 3 ∧ (c ≠ 24 ∨ b = 3))) (htod : tod < 86400) :
    absYday ((146097 * a + 36524 * b + 1461 * c + 365 * e + yd) * 86400 + tod)
      = (toInt64 (toInt64 ((400 * a + 100 * b + 4 * c + e : Nat) : Int) + absoluteZeroYear), yd) := by
  have s0 : ((146097 * a + 36524 * b + 1461 * c + 365 * e + yd) * 86400 + tod) / 86400
      = 146097 * a + 36524 * b + 1461 * c + 365 * e + yd := by omega
  have s1 : (146097 * a + 36524 * b + 1461 * c + 365 * e + yd) / 146097 = a := by omega
  have s1' : 146097 * a + 36524 * b + 1461 * c + 365 * e + yd - 146097 * a
      = 36524 * b + 1461 * c + 365 * e + yd := by omega
  have s2 : (36524 * b + 1461 * c + 365 * e + yd) / 36524
      - (36524 * b + 1461 * c + 365 * e + yd) / 36524 / 4 = b := by
    have q : (36524 * b + 1461 * c + 365 * e + yd) / 36524 = b ∨
        ((36524 * b + 1461 * c + 365 * e + yd) / 36524 = 4 ∧ b = 3) := by
      rcases hyd with h | ⟨h1, h2, h3 | h3⟩
      · left; omega
      · left; omega
      · by_cases h24 : c = 24
        · right; omega
        · left; omega
    rcases q with q | ⟨q, q3⟩
    · rw [q]; omega
    · rw [q, q3]
  have s2' : 36524 * b + 1461 * c + 365 * e + yd - 36524 * b = 1461 * c + 365 * e + yd := by
    omega
  have s3 : (1461 * c + 365 * e + yd) / 1461 = c := by omega
  have s3' : 1461 * c + 365 * e + yd - 1461 * c = 365 * e + yd := by omega
  have s4 : (365 * e + yd) / 365 - (365 * e + yd) / 365 / 4 = e := by
    have q : (365 * e + yd) / 365 = e ∨ ((365 * e + yd) / 365 = 4 ∧ e = 3) := by
      rcases hyd with h | ⟨h1, h2, _⟩
      · left; omega
      · right; omega
    rcases q with q | ⟨q, q3⟩
    · rw [q]; omega
    · rw [q, q3]
  have s4' : 365 * e + yd - 365 * e = yd := by omega
  simp only [absYday, secondsPerDay, daysPer400Years, daysPer100Years, daysPer4Years,
    Nat.reduceMul, Nat.reduceAdd, s0, s1, s1', s2, s2', s3, s3', s4, s4']

theorem digitChar_props (n : Nat) :
    '0' ≤ digitChar n ∧ digitChar n ≤ '9' ∧ digitVal (digitChar n) = (n % 10 : Nat) := by
  have h : n % 10 < 10 := Nat.mod_lt _ (by norm_num)
  unfold digitChar
  generalize n % 10 = k at *
  interval_cases k <;> decide

theorem parseUint_pad2 (n : Nat) (lo hi : Int) (hn : n < 100) (h1 : lo ≤ n) (h2 : (n : Int) ≤ hi) :
    parseUint (pad2 n) lo hi = some (n : Int) := by
  obtain ⟨a1, a2, a3⟩ := digitChar_props (n / 10)
  obtain ⟨b1, b2, b3⟩ := digitChar_props n
  have hv : (0 * 10 + digitVal (digitChar (n / 10))) * 10 + digitVal (digitChar n) = (n : Int) := by
    rw [a3, b3]; omega
  simp only [parseUint, pad2, List.all_cons, List.all_nil, List.foldl_cons, List.foldl_nil,
    a1, a2, b1, b2, hv, decide_True, Bool.and_self, if_true]
  rw [if_neg (by omega)]

theorem parseUint_pad4 (n : Nat) (lo hi : Int) (hn : n < 10000) (h1 : lo ≤ n)
    (h2 : (n : Int) ≤ hi) :
    parseUint (pad4 n) lo hi = some (n : Int) := by
  obtain ⟨a1, a2, a3⟩ := digitChar_props (n / 1000)
  obtain ⟨b1, b2, b3⟩ := digitChar_props (n / 100)
  obtain ⟨c1, c2, c3⟩ := digitChar_props (n / 10)
  obtain ⟨d1, d2, d3⟩ := digitChar_props n
  have hv : (((0 * 10 + digitVal (digitChar (n / 1000))) * 10 + digitVal (digitChar (n / 100))) * 10
      + digitVal (digitChar (n / 10))) * 10 + digitVal (digitChar n) = (n : Int) := by
    rw [a3, b3, c3, d3]; omega
  simp only [parseUint, pad4, List.all_cons, List.all_nil, List.foldl_cons, List.foldl_nil,
    a1, a2, b1, b2, c1, c2, d1, d2, hv, decide_True, Bool.and_self, if_true]
  rw [if_neg (by omega)]

theorem parseRFC3339_utcText (y m d h mi s : Nat) (hy : y ≤ 9999) (hm1 : 1 ≤ m) (hm2 : m ≤ 12)
    (hd1 : 1 ≤ d) (hd2 : (d : Int) ≤ daysIn m y) (hh : h ≤ 23) (hmi : mi ≤ 59) (hs : s ≤ 59) :
    parseRFC3339 (utcText y m d h mi s) = some (Date y m d h mi s 0) := by
  have hd3 : d < 100 := by
    have : daysIn m y ≤ 31 := by
      unfold daysIn; split
      · omega
      · interval_cases m <;> simp [daysBefore]
    omega
  have e1 := parseUint_pad4 y 0 9999 (by omega) (by omega) (by omega)
  have e2 := parseUint_pad2 m 1 12 (by omega) (by omega) (by omega)
  have e3 := parseUint_pad2 d 1 (daysIn m y) hd3 (by omega) hd2
  have e4 := parseUint_pad2 h 0 23 (by omega) (by omega) (by omega)
  have e5 := parseUint_pad2 mi 0 59 (by omega) (by omega) (by omega)
  have e6 := parseUint_pad2 s 0 59 (by omega) (by omega) (by omega)
  unfold pad4 at e1
  unfold pad2 at e2 e3 e4 e5 e6
  simp [parseRFC3339, utcText, pad4, pad2, e1, e2, e3, e4, e5, e6, isDigit]

theorem norm_id (hi lo base : Int) (h0 : 0 ≤ lo) (h1 : lo < base) :
    norm hi lo base = (hi, lo) := by
  unfold norm
  rw [if_neg (by omega)]
  simp only
  rw [if_neg (by omega)]

theorem daysBefore_le (k : Nat) : daysBefore.getD k 0 ≤ 365 := by
  by_cases hk : k < 13
  · interval_cases k <;> decide
  · have : daysBefore.length ≤ k := by simp [daysBefore]; omega
    simp [List.getD, List.getElem?_eq_none this]

theorem daysSinceEpoch_bound (y : Int) (hy0 : 0 ≤ y) (hy1 : y ≤ 9999) :
    106751990353566 ≤ daysSinceEpoch y ∧ daysSinceEpoch y ≤ 106751994005626 := by
  obtain ⟨a, b, c, e, hb, hc, he, hY, _, hd⟩ := daysSinceEpoch_eq y hy0 hy1
  omega

theorem toUint64_natCast (n : Nat) (h : n < 18446744073709551616) : toUint64 (n : Int) = n := by
  unfold toUint64; omega

theorem digits_lt10 (fuel n : Nat) (h : n < 10) : digits (fuel + 1) n = [digitChar n] := by
  simp [digits, h, digitChar, Nat.mod_eq_of_lt h]

theorem digits_ge10 (fuel n : Nat) (h : ¬ n < 10) :
    digits (fuel + 1) n = digits fuel (n / 10) ++ [digitChar n] := by
  simp [digits, h, digitChar]

theorem digitChar_zero (n : Nat) (h : n < 10) : digitChar (n / 10) = '0' := by
  rw [Nat.div_eq_of_lt h]; rfl

theorem appendInt_pad2 (b : List Char) (n : Nat) (h : n < 100) :
    appendInt b (n : Int) 2 = b ++ pad2 n := by
  have hn : ¬ ((n : Int) < 0) := by omega
  unfold appendInt
  simp only [hn, if_false, toUint64_natCast n (by omega)]
  by_cases h10 : n < 10
  · rw [show (20 : Nat) = 19 + 1 from rfl, digits_lt10 _ _ h10]
    simp [pad2, digitChar_zero n h10]
  · rw [show (20 : Nat) = 19 + 1 from rfl, digits_ge10 _ _ h10,
      show (19 : Nat) = 18 + 1 from rfl, digits_lt10 _ _ (by omega : n / 10 < 10)]
    simp [pad2]

theorem appendInt_pad4 (b : List Char) (n : Nat) (h : n < 10000) :
    appendInt b (n : Int) 4 = b ++ pad4 n := by
  have hn : ¬ ((n : Int) < 0) := by omega
  unfold appendInt
  simp only [hn, if_false, toUint64_natCast n (by omega)]
  by_cases h10 : n < 10
  · rw [show (20 : Nat) = 19 + 1 from rfl, digits_lt10 _ _ h10]
    have a1 : n / 1000 = 0 := by omega
    have a2 : n / 100 = 0 := by omega
    have a3 : n / 10 = 0 := by omega
    simp [pad4, a1, a2, a3]
    decide
  · by_cases h100 : n < 100
    · rw [show (20 : Nat) = 19 + 1 from rfl, digits_ge10 _ _ h10,
        show (19 : Nat) = 18 + 1 from rfl, digits_lt10 _ _ (by omega : n / 10 < 10)]
      have a1 : n / 1000 = 0 := by omega
      have a2 : n / 100 = 0 := by omega
      simp [pad4, a1, a2]
      decide
    · by_cases h1000 : n < 1000
      · rw [show (20 : Nat) = 19 + 1 from rfl, digits_ge10 _ _ h10,
          show (19 : Nat) = 18 + 1 from rfl, digits_ge10 _ _ (by omega : ¬ n / 10 < 10),
          show (18 : Nat) = 17 + 1 from rfl, digits_lt10 _ _ (by omega : n / 10 / 10 < 10)]
        have a1 : n / 1000 = 0 := by omega
        have a2 : n / 10 / 10 = n / 100 := by omega
        simp [pad4, a1, a2]
        decide
      · rw [show (20 : Nat) = 19 + 1 from rfl, digits_ge10 _ _ h10,
          show (19 : Nat) = 18 + 1 from rfl, digits_ge10 _ _ (by omega : ¬ n / 10 < 10),
          show (18 : Nat) = 17 + 1 from rfl, digits_ge10 _ _ (by omega : ¬ n / 10 / 10 < 10),
          show (17 : Nat) = 16 + 1 from rfl, digits_lt10 _ _ (by omega : n / 10 / 10 / 10 < 10)]
        have a1 : n / 10 / 10 / 10 = n / 1000 := by omega
        have a2 : n / 10 / 10 = n / 100 := by omega
        rw [a1, a2]
        simp [pad4]

theorem daysIn_eq (m : Nat) (y : Int) (h1 : 1 ≤ m) (h2 : m ≤ 12) :
    daysIn m y = daysInNat (isLeap y) m := by
  unfold daysIn daysInNat
  generalize isLeap y = leap
  interval_cases m <;> cases leap <;> decide

set_option maxRecDepth 100000 in
theorem monthDay_ydayOf : ∀ (leap : Bool) (m : Fin 13) (d : Fin 32),
    1 ≤ m.val → 1 ≤ d.val → d.val ≤ daysInNat leap m.val →
      monthDay leap (ydayOf leap m.val d.val) = (m.val, d.val) ∧
      ydayOf leap m.val d.val < 365 + (if leap then 1 else 0) := by
  decide

set_option maxRecDepth 100000 in
theorem ydayOf_monthDay : ∀ (leap : Bool) (yd : Fin 366),
    yd.val < 365 + (if leap then 1 else 0) →
      1 ≤ (monthDay leap yd.val).1 ∧ (monthDay leap yd.val).1 ≤ 12 ∧
      1 ≤ (monthDay leap yd.val).2 ∧
      (monthDay leap yd.val).2 ≤ daysInNat leap (monthDay leap yd.val).1 ∧
      ydayOf leap (monthDay leap yd.val).1 (monthDay leap yd.val).2 = yd.val := by
  decide

theorem toInt64_add_toInt64 (a b : Int) : toInt64 (toInt64 a + b) = toInt64 (a + b) := by
  unfold toInt64; omega

theorem toInt64_eq (x : Int) (h : -9223372036854775808 ≤ x) (h2 : x < 9223372036854775808) :
    toInt64 x = x := by
  unfold toInt64; omega

theorem toInt32_eq (x : Int) (h : -2147483648 ≤ x) (h2 : x < 2147483648) :
    toInt32 x = x := by
  unfold toInt32; omega

theorem toUint64_eq (x : Int) (n : Nat) (hx : x = n) (h2 : n < 18446744073709551616) :
    toUint64 x = n := by
  unfold toUint64; omega

theorem unix_of_abs (X d h mi s : Nat) (hX : 106751990353566 ≤ X) (hX2 : X ≤ 106751994005992)
    (hd1 : 1 ≤ d) (hd2 : d ≤ 31) (hh : h ≤ 23) (hmi : mi ≤ 59) (hs : s ≤ 59) :
    toInt64 (toInt64 ((toUint64 (((toUint64 ((X : Int) + ((d : Int) - 1)) * 86400 % 2 ^ 64 : Nat) : Int)
        + ((h : Int) * 3600 + (mi : Int) * 60 + (s : Int))) : Nat) : Int)
      + ((-292277022399 - 1) * 31556952
        + -((1969 * 365 + 1969 / 4 - 1969 / 100 + 1969 / 400) * 86400)))
    = ↑((X + (d - 1)) * 86400 + (h * 3600 + mi * 60 + s)) - 9223372028715321600 := by
  have e1 : toUint64 (↑X + (↑d - 1)) = X + (d - 1) := toUint64_eq _ _ (by omega) (by omega)
  have e2 : (X + (d - 1)) * 86400 % 2 ^ 64 = (X + (d - 1)) * 86400 :=
    Nat.mod_eq_of_lt (by omega)
  have e3 : toUint64 ((((X + (d - 1)) * 86400 : Nat) : Int)
        + ((h : Int) * 3600 + (mi : Int) * 60 + (s : Int)))
      = (X + (d - 1)) * 86400 + (h * 3600 + mi * 60 + s) :=
    toUint64_eq _ _ (by push_cast; ring) (by omega)
  rw [e1, e2, e3, toInt64_add_toInt64]
  have e4 : ((-292277022399 - 1) * 31556952
        + -((1969 * 365 + 1969 / 4 - 1969 / 100 + 1969 / 400) * 86400) : Int)
      = -9223372028715321600 := by norm_num
  rw [e4]
  rw [toInt64_eq _ (by omega) (by omega)]
  rfl

theorem Date_eq (y m d h mi s ns : Nat) (hy : y ≤ 9999) (hm1 : 1 ≤ m) (hm2 : m ≤ 12)
    (hd1 : 1 ≤ d) (hd2 : d ≤ 31) (hh : h ≤ 23) (hmi : mi ≤ 59) (hs : s ≤ 59)
    (hns : ns < 1000000000) :
    Date y m d h mi s ns =
      ⟨((daysSinceEpoch y + ydayOf (isLeap y) m d) * 86400 + (h * 3600 + mi * 60 + s) : Nat)
        - 9223372028715321600, ns, 0⟩ := by
  have n1 := norm_id y ((m : Int) - 1) 12 (by omega) (by omega)
  have n2 := norm_id s ns 1000000000 (by omega) (by omega)
  have n3 := norm_id mi s 60 (by omega) (by omega)
  have n4 := norm_id h mi 60 (by omega) (by omega)
  have n5 := norm_id d h 24 (by omega) (by omega)
  have hm : ((m : Int) - 1).toNat = m - 1 := by omega
  have hmm : (m : Int) - 1 + 1 = m := by omega
  unfold Date
  simp only [n1]
  simp only [n2]
  simp only [n3]
  simp only [n4]
  simp only [n5]
  simp only [hmm]
  simp only [hm]
  obtain ⟨hl, hu⟩ := daysSinceEpoch_bound y (by omega) (by omega)
  have hb := daysBefore_le (m - 1)
  have h3 : ((m : Int) ≥ 3) ↔ m ≥ 3 := by omega
  have hif : (if (isLeap ↑y && decide ((m : Int) ≥ 3)) = true then
        daysSinceEpoch ↑y + daysBefore.getD (m - 1) 0 + 1
      else daysSinceEpoch ↑y + daysBefore.getD (m - 1) 0)
      = daysSinceEpoch ↑y + (daysBefore.getD (m - 1) 0
          + if (isLeap ↑y && decide (m ≥ 3)) = true then 1 else 0) := by
    simp only [Bool.and_eq_true, decide_eq_true_eq, h3]
    split_ifs <;> omega
  have hL : (if (isLeap (y : Int) && decide (m ≥ 3)) = true then 1 else 0) ≤ 1 := by
    split_ifs <;> omega
  rw [hif]
  simp only [secondsPerDay, absoluteToInternal, internalToUnix, unixToInternal, absoluteZeroYear,
    ydayOf]
  rw [unix_of_abs _ d h mi s (by omega) (by omega) hd1 hd2 hh hmi hs]
  simp only [Nat.add_assoc]

theorem absYday_Date (y : Int) (hy0 : 0 ≤ y) (hy1 : y ≤ 9999) (yd tod : Nat)
    (hyd : yd < 365 + (if isLeap y then 1 else 0)) (htod : tod < 86400) :
    absYday ((daysSinceEpoch y + yd) * 86400 + tod) = (y, yd) := by
  obtain ⟨a, b, c, e, hb, hc, he, hY, hleap, hd⟩ := daysSinceEpoch_eq y hy0 hy1
  have hyd' : yd < 365 ∨ (yd = 365 ∧ e = 3 ∧ (c ≠ 24 ∨ b = 3)) := by
    by_cases hl : isLeap y = true
    · rw [if_pos hl] at hyd
      have := hleap.mp hl
      by_cases h365 : yd = 365
      · right; exact ⟨h365, this⟩
      · left; omega
    · rw [if_neg hl] at hyd
      left; omega
  rw [hd, absYday_cycles a b c e yd tod hb hc he hyd' htod]
  have hyear : toInt64 (toInt64 ((400 * a + 100 * b + 4 * c + e : Nat) : Int) + absoluteZeroYear)
      = y := by
    rw [toInt64_add_toInt64]
    unfold absoluteZeroYear toInt64
    omega
  rw [hyear]

theorem absClock_eq (D h mi s : Nat) (hh : h ≤ 23) (hmi : mi ≤ 59) (hs : s ≤ 59) :
    absClock (D * 86400 + (h * 3600 + mi * 60 + s)) = (h, mi, s) := by
  have e0 : (D * 86400 + (h * 3600 + mi * 60 + s)) % 86400 = h * 3600 + mi * 60 + s := by omega
  have e1 : (h * 3600 + mi * 60 + s) / 3600 = h := by omega
  have e2 : h * 3600 + mi * 60 + s - h * 3600 = mi * 60 + s := by omega
  have e3 : (mi * 60 + s) / 60 = mi := by omega
  have e4 : mi * 60 + s - mi * 60 = s := by omega
  simp only [absClock, secondsPerDay, e0, e1, e2, e3, e4]

theorem Time_abs_eq (A : Nat) (ns : Int) (hA : A < 18446744073709551616) :
    (Time.mk ((A : Int) - 9223372028715321600) ns 0).abs = A := by
  unfold Time.abs unixToInternal internalToAbsolute absoluteToInternal absoluteZeroYear toUint64
  simp only
  omega

theorem Unix_eq (sec ns : Int) (h0 : 0 ≤ ns) (h1 : ns < 1000000000) :
    Unix sec ns = ⟨sec, ns, 0⟩ := by
  unfold Unix
  rw [if_neg (by omega)]

theorem ydayOf_le (leap : Bool) (m d : Nat) (hd : d ≤ 31) : ydayOf leap m d ≤ 400 := by
  have := daysBefore_le (m - 1)
  unfold ydayOf
  split_ifs <;> omega

/-- Formatting the time `Date` builds from a valid date and time of day gives
back the text of these fields. -/
theorem Format_Date (y m d h mi s ns : Nat) (hy : y ≤ 9999) (hm1 : 1 ≤ m) (hm2 : m ≤ 12)
    (hd1 : 1 ≤ d) (hd2 : (d : Int) ≤ daysIn m y) (hh : h ≤ 23) (hmi : mi ≤ 59) (hs : s ≤ 59)
    (hns : ns < 1000000000) :
    (Timestamp.New (Date y m d h mi s ns)).AsTime.Format = utcText y m d h mi s ∧
    Timestamp.New (Date y m d h mi s ns) =
      ⟨((daysSinceEpoch y + ydayOf (isLeap y) m d) * 86400 + (h * 3600 + mi * 60 + s) : Nat)
        - 9223372028715321600, ns⟩ := by
  rw [daysIn_eq m y hm1 hm2] at hd2
  have hd3 : d ≤ daysInNat (isLeap y) m := by exact_mod_cast hd2
  have hd31 : d ≤ 31 := by
    have : daysInNat (isLeap (y : Int)) m ≤ 31 := by
      generalize isLeap (y : Int) = leap
      interval_cases m <;> cases leap <;> decide
    omega
  obtain ⟨hmd, hyd⟩ := monthDay_ydayOf (isLeap y) ⟨m, by omega⟩ ⟨d, by omega⟩ hm1 hd1 hd3
  simp only at hmd hyd
  obtain ⟨hl, hu⟩ := daysSinceEpoch_bound y (by omega) (by omega)
  have hyl := ydayOf_le (isLeap y) m d hd31
  rw [Date_eq y m d h mi s ns hy hm1 hm2 hd1 hd31 hh hmi hs hns]
  have hnew : Timestamp.New ⟨((daysSinceEpoch y + ydayOf (isLeap y) m d) * 86400
      + (h * 3600 + mi * 60 + s) : Nat) - 9223372028715321600, ns, 0⟩
      = ⟨((daysSinceEpoch y + ydayOf (isLeap y) m d) * 86400 + (h * 3600 + mi * 60 + s) : Nat)
        - 9223372028715321600, ns⟩ := by
    unfold Timestamp.New
    simp only [Timestamp.mk.injEq]
    exact ⟨toInt64_eq _ (by omega) (by omega), toInt32_eq _ (by omega) (by omega)⟩
  rw [hnew]
  refine ⟨?_, rfl⟩
  unfold Timestamp.AsTime
  simp only
  rw [Unix_eq _ _ (by omega) (by omega)]
  unfold Time.Format
  rw [Time_abs_eq _ _ (by omega)]
  have hY := absYday_Date y (by omega) (by omega) (ydayOf (isLeap y) m d)
    (h * 3600 + mi * 60 + s) hyd (by omega)
  have hC := absClock_eq (daysSinceEpoch y + ydayOf (isLeap y) m d) h mi s hh hmi hs
  have hD : absDate ((daysSinceEpoch y + ydayOf (isLeap y) m d) * 86400
      + (h * 3600 + mi * 60 + s)) = ((y : Int), (m : Int), (d : Int)) := by
    unfold absDate
    rw [hY]
    simp only [hmd]
  simp only [hD, hC]
  rw [appendInt_pad4 _ y (by omega), appendInt_pad2 _ m (by omega), appendInt_pad2 _ d (by omega),
    appendInt_pad2 _ h (by omega), appendInt_pad2 _ mi (by omega), appendInt_pad2 _ s (by omega)]
  simp [utcText]

/-- Every day count splits into cycles of 400, 100, 4 and 1 years and a day
within the year, the way `absYday` splits it. -/
theorem days_split (D : Nat) :
    ∃ a b c e yd : Nat, b ≤ 3 ∧ c ≤ 24 ∧ e ≤ 3 ∧
      (yd < 365 ∨ (yd = 365 ∧ e = 3 ∧ (c ≠ 24 ∨ b = 3))) ∧
      D = 146097 * a + 36524 * b + 1461 * c + 365 * e + yd := by
  -- the 400-year cycle
  obtain ⟨a, R, hR, hD⟩ : ∃ a R : Nat, R < 146097 ∧ D = 146097 * a + R :=
    ⟨D / 146097, D % 146097, Nat.mod_lt _ (by norm_num), by omega⟩
  -- the century within the cycle
  obtain ⟨b, R2, hb, hR2, hb3, hRR⟩ : ∃ b R2 : Nat, b ≤ 3 ∧ R2 ≤ 36524 ∧
      (R2 = 36524 → b = 3) ∧ R = 36524 * b + R2 := by
    by_cases h : R < 109572
    · exact ⟨R / 36524, R % 36524, by omega, by omega, by omega, by omega⟩
    · exact ⟨3, R - 109572, by omega, by omega, fun _ => rfl, by omega⟩
  -- the 4-year cycle within the century
  obtain ⟨c, R3, hc, hR3, hc24, hRR3⟩ : ∃ c R3 : Nat, c ≤ 24 ∧ R3 ≤ 1460 ∧
      (c = 24 → R3 = 1460 → b = 3) ∧ R2 = 1461 * c + R3 :=
    ⟨R2 / 1461, R2 % 1461, by omega, by omega, by omega, by omega⟩
  -- the year within the 4-year cycle
  obtain ⟨e, yd, he, hyd, hRR4⟩ : ∃ e yd : Nat, e ≤ 3 ∧
      (yd < 365 ∨ (yd = 365 ∧ e = 3 ∧ R3 = 1460)) ∧ R3 = 365 * e + yd := by
    by_cases h : R3 < 1095
    · exact ⟨R3 / 365, R3 % 365, by omega, by omega, by omega⟩
    · exact ⟨3, R3 - 1095, by omega, by omega, by omega⟩
  refine ⟨a, b, c, e, yd, hb, hc, he, ?_, by omega⟩
  rcases hyd with h | ⟨h1, h2, h3⟩
  · left; exact h
  · right
    refine ⟨h1, h2, ?_⟩
    by_cases h24 : c = 24
    · right; exact hc24 h24 h3
    · left; exact h24

theorem year_range (a b c e yd : Nat) (hb : b ≤ 3) (hc : c ≤ 24) (he : e ≤ 3)
    (hyd : yd < 365 ∨ (yd = 365 ∧ e = 3 ∧ (c ≠ 24 ∨ b = 3)))
    (h0 : 106751990353566 ≤ 146097 * a + 36524 * b + 1461 * c + 365 * e + yd)
    (h1 : 146097 * a + 36524 * b + 1461 * c + 365 * e + yd ≤ 106751994005990) :
    292277022399 ≤ 400 * a + 100 * b + 4 * c + e ∧
    400 * a + 100 * b + 4 * c + e ≤ 292277032398 := by
  have ha0 : 730692555 ≤ a := by omega
  have ha1 : a ≤ 730692580 := by omega
  constructor
  · by_cases ha : a = 730692555
    · subst ha
      have hb3 : b = 3 := by omega
      subst hb3
      have hc24 : c = 24 := by omega
      subst hc24
      rcases hyd with h | ⟨h, h3, _⟩ <;> omega
    · omega
  · by_cases ha : a = 730692580
    · by_cases hb3 : b = 3
      · by_cases hc24 : c = 24
        · have he2 : e ≤ 2 := by omega
          omega
        · omega
      · omega
    · omega

theorem decomposition_unique (a b c e a' b' c' e' : Nat) (hb : b ≤ 3) (hc : c ≤ 24) (he : e ≤ 3)
    (hb' : b' ≤ 3) (hc' : c' ≤ 24) (he' : e' ≤ 3)
    (h : 400 * a + 100 * b + 4 * c + e = 400 * a' + 100 * b' + 4 * c' + e') :
    a = a' ∧ b = b' ∧ c = c' ∧ e = e' := by
  have h1 : a = a' := by omega
  subst h1
  have h2 : b = b' := by omega
  subst h2
  have h3 : c = c' := by omega
  subst h3
  exact ⟨rfl, rfl, rfl, by omega⟩

/-- The year and day of the year `absYday` computes for an absolute time
within the years 0 to 9999 are the ones `daysSinceEpoch` counts back. -/
theorem absYday_inv (A : Nat) (hA0 : 9223371966548102400 ≤ A) (hA1 : A ≤ 9223372282117622399) :
    ∃ (y yd : Nat), y ≤ 9999 ∧ yd < 365 + (if isLeap y then 1 else 0) ∧
      absYday A = ((y : Int), yd) ∧ A / 86400 = daysSinceEpoch y + yd := by
  obtain ⟨a, b, c, e, yd, hb, hc, he, hyd, hD⟩ := days_split (A / 86400)
  have hA : A = (146097 * a + 36524 * b + 1461 * c + 365 * e + yd) * 86400 + A % 86400 := by
    omega
  obtain ⟨hy0, hy1⟩ := year_range a b c e yd hb hc he hyd (by omega) (by omega)
  obtain ⟨y, hy⟩ : ∃ y : Nat, y + 292277022399 = 400 * a + 100 * b + 4 * c + e :=
    ⟨400 * a + 100 * b + 4 * c + e - 292277022399, by omega⟩
  obtain ⟨a', b', c', e', hb', hc', he', hY, hleap, hd⟩ :=
    daysSinceEpoch_eq y (by omega) (by omega)
  obtain ⟨rfl, rfl, rfl, rfl⟩ := decomposition_unique a b c e a' b' c' e' hb hc he hb' hc' he'
    (by omega)
  refine ⟨y, yd, by omega, ?_, ?_, by omega⟩
  · by_cases hl : isLeap (y : Int) = true
    · rw [if_pos hl]; omega
    · rw [if_neg hl]
      rcases hyd with h | ⟨_, h3, h4⟩
      · omega
      · exact absurd (hleap.mpr ⟨h3, h4⟩) hl
  · rw [hA, absYday_cycles a b c e yd (A % 86400) hb hc he hyd (by omega)]
    have hyear : toInt64 (toInt64 ((400 * a + 100 * b + 4 * c + e : Nat) : Int) + absoluteZeroYear)
        = y := by
      rw [toInt64_add_toInt64]
      unfold absoluteZeroYear toInt64
      omega
    rw [hyear]

theorem daysInNat_le (leap : Bool) (m : Nat) (h1 : 1 ≤ m) (h2 : m ≤ 12) :
    daysInNat leap m ≤ 31 := by
  interval_cases m <;> cases leap <;> decide

theorem absClock_inv (A : Nat) :
    ∃ h mi s : Nat, h ≤ 23 ∧ mi ≤ 59 ∧ s ≤ 59 ∧ A % 86400 = h * 3600 + mi * 60 + s ∧
      absClock A = (h, mi, s) := by
  refine ⟨A % 86400 / 3600, A % 86400 % 3600 / 60, A % 86400 % 60,
    by omega, by omega, by omega, by omega, ?_⟩
  have hA : A = A / 86400 * 86400
      + (A % 86400 / 3600 * 3600 + A % 86400 % 3600 / 60 * 60 + A % 86400 % 60) := by omega
  conv_lhs => rw [hA]
  exact absClock_eq _ _ _ _ (by omega) (by omega) (by omega)

/-- Formatting a time of the years 0 to 9999 gives the text of a valid date
and time of day, and parsing that text gives the same second back. -/
theorem Parse_Format (S N : Int) (hS0 : -62167219200 ≤ S) (hS1 : S ≤ 253402300799)
    (hN0 : 0 ≤ N) (hN1 : N < 1000000000) :
    ∃ y m d h mi s : Nat, y ≤ 9999 ∧ 1 ≤ m ∧ m ≤ 12 ∧ 1 ≤ d ∧ (d : Int) ≤ daysIn m y ∧
      h ≤ 23 ∧ mi ≤ 59 ∧ s ≤ 59 ∧
      (Timestamp.mk S N).AsTime.Format = utcText y m d h mi s ∧
      Parse (utcText y m d h mi s) = .ok ⟨S, 0, 0⟩ := by
  obtain ⟨A, hA⟩ : ∃ A : Nat, (A : Int) = S + 9223372028715321600 :=
    ⟨(S + 9223372028715321600).toNat, by omega⟩
  have hS : S = (A : Int) - 9223372028715321600 := by omega
  obtain ⟨y, yd, hy, hyd, hY, hD⟩ := absYday_inv A (by omega) (by omega)
  have hyd366 : yd < 366 := by split_ifs at hyd <;> omega
  obtain ⟨hm1, hm2, hd1, hd2, hyo⟩ := ydayOf_monthDay (isLeap y) ⟨yd, hyd366⟩ hyd
  simp only at hm1 hm2 hd1 hd2 hyo
  obtain ⟨h, mi, s, hh, hmi, hs, htod, hC⟩ := absClock_inv A
  have hdIn : (((monthDay (isLeap y) yd).2 : Nat) : Int)
      ≤ daysIn ((monthDay (isLeap y) yd).1 : Nat) y := by
    rw [daysIn_eq _ _ hm1 hm2]
    exact_mod_cast hd2
  have hd31 : (monthDay (isLeap y) yd).2 ≤ 31 :=
    le_trans hd2 (daysInNat_le _ _ hm1 hm2)
  refine ⟨y, (monthDay (isLeap y) yd).1, (monthDay (isLeap y) yd).2, h, mi, s,
    hy, hm1, hm2, hd1, hdIn, hh, hmi, hs, ?_, ?_⟩
  · unfold Timestamp.AsTime
    simp only
    rw [Unix_eq _ _ hN0 hN1, hS]
    unfold Time.Format
    rw [Time_abs_eq _ _ (by omega)]
    have hDt : absDate A = ((y : Int), (((monthDay (isLeap y) yd).1 : Nat) : Int),
        (((monthDay (isLeap y) yd).2 : Nat) : Int)) := by
      unfold absDate
      rw [hY]
    simp only [hDt, hC]
    have p1 := fun b => appendInt_pad4 b y (by omega)
    have p2 := fun b => appendInt_pad2 b (monthDay (isLeap y) yd).1 (by omega)
    have p3 := fun b => appendInt_pad2 b (monthDay (isLeap y) yd).2 (by omega)
    have p4 := fun b => appendInt_pad2 b h (by omega)
    have p5 := fun b => appendInt_pad2 b mi (by omega)
    have p6 := fun b => appendInt_pad2 b s (by omega)
    simp only [p1, p2, p3, p4, p5, p6]
    simp [utcText]
  · unfold Parse
    rw [parseRFC3339_utcText y _ _ h mi s hy hm1 hm2 hd1 hdIn hh hmi hs]
    simp only
    have hDe := Date_eq y (monthDay (isLeap y) yd).1 (monthDay (isLeap y) yd).2 h mi s 0 hy
      hm1 hm2 hd1 hd31 hh hmi hs (by omega)
    simp only [Nat.cast_zero] at hDe
    rw [hDe, hyo]
    congr 2
    omega

theorem norm_snd (hi lo : Int) :
    0 ≤ (norm hi lo 1000000000).2 ∧ (norm hi lo 1000000000).2 < 1000000000 := by
  unfold norm
  by_cases h : lo < 0
  · simp only [h, if_true]
    have h1 : ¬ (lo + ((-lo - 1) / 1000000000 + 1) * 1000000000 ≥ 1000000000) := by omega
    rw [if_neg h1]
    constructor <;> omega
  · simp only [h, if_false]
    by_cases h2 : lo ≥ 1000000000
    · rw [if_pos h2]
      constructor <;> omega
    · rw [if_neg h2]
      constructor <;> omega

theorem Date_nsec (year month day hour min sec nsec : Int) :
    0 ≤ (Date year month day hour min sec nsec).nsec ∧
    (Date year month day hour min sec nsec).nsec < 1000000000 :=
  norm_snd sec nsec

theorem addSec_nsec (t : Time) (d : Int) : (t.addSec d).nsec = t.nsec := rfl

theorem parseRFC3339_nsec (s : List Char) (t : Time) (h : parseRFC3339 s = some t) :
    0 ≤ t.nsec ∧ t.nsec < 1000000000 := by
  unfold parseRFC3339 at h
  by_cases hc : (decide ((List.drop 19 s).length ≥ 2) && (List.drop 19 s).getD 0 ' ' == '.' &&
      isDigit (List.drop 19 s) 1) = true
  all_goals
    simp only [hc, if_true, if_false] at h
    repeat' split at h
    all_goals first
      | exact Option.noConfusion h
      | (simp only [Option.some.injEq] at h
         rw [← h]
         try simp only [addSec_nsec]
         exact Date_nsec _ _ _ _ _ _ _)

theorem parse_nsec (s : List Char) (t : Time) (h : parse s = .ok t) :
    0 ≤ t.nsec ∧ t.nsec < 1000000000 := by
  unfold parse at h
  repeat' split at h
  all_goals first
    | exact Except.noConfusion h
    | (simp only [Except.ok.injEq] at h
       rw [← h]
       try simp only [addSec_nsec]
       exact Date_nsec _ _ _ _ _ _ _)

theorem Parse_nsec (s : List Char) (t : Time) (h : Parse s = .ok t) :
    0 ≤ t.nsec ∧ t.nsec < 1000000000 := by
  unfold Parse at h
  split at h
  · rename_i t' ht'
    simp only [Except.ok.injEq] at h
    rw [← h]
    exact parseRFC3339_nsec s _ ht'
  · exact parse_nsec s t h

/-- The day count of `daysSinceEpoch` is the count of days from 0000-01-01
shifted by the days from the absolute epoch to that day. -/
theorem daysSinceEpoch_spec (y : Nat) (hy : y ≤ 9999) :
    daysSinceEpoch y = 106751990353566 + daysBeforeYear y := by
  obtain ⟨a, b, c, e, hb, hc, he, hY, _, hd⟩ := daysSinceEpoch_eq y (by omega) (by omega)
  rw [hd]
  unfold daysBeforeYear
  have ha : 730692555 ≤ a := by omega
  have ha2 : a ≤ 730692581 := by omega
  obtain ⟨q, hq⟩ : ∃ q : Nat, a = 730692555 + q := ⟨a - 730692555, by omega⟩
  subst hq
  have hy' : y + 399 = 400 * q + 100 * b + 4 * c + e := by omega
  have h4 : (y + 3) / 4 = 100 * q + 25 * b + c - 99 := by omega
  have h100 : (y + 99) / 100 = 4 * q + b - 3 := by omega
  have h400 : (y + 399) / 400 = q := by omega
  rw [h4, h100, h400]
  omega

/-- The wire timestamp of the time `Date` builds from a valid date and time
of day is the instant `unixSeconds` counts. -/
theorem New_Date (y m d h mi s : Nat) (hy : y ≤ 9999) (hm1 : 1 ≤ m) (hm2 : m ≤ 12)
    (hd1 : 1 ≤ d) (hd2 : (d : Int) ≤ daysIn m y) (hh : h ≤ 23) (hmi : mi ≤ 59) (hs : s ≤ 59) :
    Timestamp.New (Date y m d h mi s 0) = ⟨unixSeconds y m d h mi s, 0⟩ := by
  obtain ⟨_, hN⟩ := Format_Date y m d h mi s 0 hy hm1 hm2 hd1 hd2 hh hmi hs (by omega)
  simp only [Nat.cast_zero] at hN
  rw [hN, daysSinceEpoch_spec y hy]
  unfold unixSeconds
  simp only [Timestamp.mk.injEq, and_true]
  push_cast
  ring

/-- The round trip of the text of a valid date and time of day in UTC:
parsing gives the wire timestamp of its instant and formatting that gives
the text back. -/
theorem round_trip_rfc3339UTC (y m d h mi s : Nat)
    (hy : y ≤ 9999) (hm1 : 1 ≤ m) (hm2 : m ≤ 12) (hd1 : 1 ≤ d)
    (hd2 : (d : Int) ≤ daysIn m y) (hh : h ≤ 23) (hmi : mi ≤ 59) (hs : s ≤ 59) :
    parseTimestamp (rfc3339UTC y m d h mi s) = .ok ⟨unixSeconds y m d h mi s, 0⟩ ∧
    formatTimestamp (some ⟨unixSeconds y m d h mi s, 0⟩) = rfc3339UTC y m d h mi s := by
  have hP := parseRFC3339_utcText y m d h mi s hy hm1 hm2 hd1 hd2 hh hmi hs
  obtain ⟨hF, _⟩ := Format_Date y m d h mi s 0 hy hm1 hm2 hd1 hd2 hh hmi hs (by omega)
  simp only [Nat.cast_zero] at hF
  have hN := New_Date y m d h mi s hy hm1 hm2 hd1 hd2 hh hmi hs
  rw [hN] at hF
  constructor
  · unfold parseTimestamp
    show (match Parse (utcText y m d h mi s) with
      | .error err => Except.error (GoError.wrap "invalid timestamp format: " (.parse err) "")
      | .ok t => .ok (Timestamp.New t)) = _
    unfold Parse
    rw [hP]
    simp only [hN]
  · show String.mk (Timestamp.AsTime ⟨unixSeconds y m d h mi s, 0⟩).Format = _
    rw [hF]
    rfl

/-! ### Strict RFC 3339 texts with a fraction and an offset -/

theorem digitChar_facts (n : Nat) (hn : n < 10) :
    (digitChar n).toNat - 48 = n ∧ ¬ (digitChar n < '0' ∨ digitChar n > '9') ∧
    digitChar n ≠ '-' ∧ digitChar n ≠ '+' ∧ digitChar n ≠ '.' ∧ digitChar n ≠ 'Z' ∧
    (decide ('0' ≤ digitChar n) && decide (digitChar n ≤ '9')) = true := by
  interval_cases n <;> decide

theorem digitsValue_lt (ds : List (Fin 10)) (x : Nat) :
    digitsValue ds x + 1 ≤ (x + 1) * 10 ^ ds.length := by
  induction ds generalizing x with
  | nil => simp [digitsValue]
  | cons d ds ih =>
    have h := ih (x * 10 + d.val)
    have hd := d.isLt
    have h2 : (x * 10 + d.val + 1) * 10 ^ ds.length ≤ (x + 1) * 10 * 10 ^ ds.length :=
      Nat.mul_le_mul_right _ (by omega)
    have h3 : digitsValue (d :: ds) x = digitsValue ds (x * 10 + d.val) := rfl
    rw [h3, List.length_cons, pow_succ]
    calc digitsValue ds (x * 10 + d.val) + 1 ≤ (x * 10 + d.val + 1) * 10 ^ ds.length := h
      _ ≤ (x + 1) * 10 * 10 ^ ds.length := h2
      _ = (x + 1) * (10 ^ ds.length * 10) := by ring

/-- On a run of digits that ends the text `leadingInt` returns their value. -/
theorem leadingInt_digits (ds : List (Fin 10)) (x : Nat)
    (hx : (x + 1) * 10 ^ ds.length ≤ 1000000000000000000) :
    leadingInt (ds.map fun d => digitChar d.val) x = some (digitsValue ds x, []) := by
  induction ds generalizing x with
  | nil => rfl
  | cons d ds ih =>
    obtain ⟨f1, f2, -⟩ := digitChar_facts d.val d.isLt
    have hd := d.isLt
    have hpos : 1 ≤ 10 ^ ds.length := Nat.one_le_pow _ _ (by norm_num)
    rw [List.length_cons, pow_succ] at hx
    have hx1 : (x + 1) * 10 ≤ 1000000000000000000 := by
      calc (x + 1) * 10 = (x + 1) * (1 * 10) := by ring
        _ ≤ (x + 1) * (10 ^ ds.length * 10) :=
          Nat.mul_le_mul_left _ (Nat.mul_le_mul_right _ hpos)
        _ ≤ 1000000000000000000 := hx
    have hx2 : (x * 10 + d.val + 1) * 10 ^ ds.length ≤ 1000000000000000000 := by
      calc (x * 10 + d.val + 1) * 10 ^ ds.length ≤ (x + 1) * 10 * 10 ^ ds.length :=
          Nat.mul_le_mul_right _ (by omega)
        _ = (x + 1) * (10 ^ ds.length * 10) := by ring
        _ ≤ 1000000000000000000 := hx
    have h3 : digitsValue (d :: ds) x = digitsValue ds (x * 10 + d.val) := rfl
    rw [h3, List.map_cons, leadingInt, if_neg f2, if_neg (by norm_num; omega)]
    simp only [f1]
    rw [if_neg (by norm_num; omega)]
    exact ih (x * 10 + d.val) hx2


/-- On one to nine digits `atoi` returns their decimal value. -/
theorem atoi_digits (d : Fin 10) (ds : List (Fin 10)) (hlen : (d :: ds).length ≤ 9) :
    atoi ((d :: ds).map fun d => digitChar d.val) = .ok (digitsValue (d :: ds) 0 : Nat) := by
  obtain ⟨-, -, f3, f4, -⟩ := digitChar_facts d.val d.isLt
  have hpow : 10 ^ (d :: ds).length ≤ 10 ^ 9 := Nat.pow_le_pow_right (by norm_num) hlen
  have hx : (0 + 1) * 10 ^ (d :: ds).length ≤ 1000000000000000000 := by
    rw [Nat.zero_add, Nat.one_mul]
    exact le_trans hpow (by norm_num)
  have hL := leadingInt_digits (d :: ds) 0 hx
  have hv := digitsValue_lt (d :: ds) 0
  rw [Nat.zero_add, Nat.one_mul] at hv
  have hv9 : digitsValue (d :: ds) 0 < 1000000000 := by
    have : 10 ^ 9 = 1000000000 := by norm_num
    omega
  simp only [List.map_cons] at hL ⊢
  have h64 : toInt64 (digitsValue (d :: ds) 0 : Nat) = (digitsValue (d :: ds) 0 : Nat) := by
    unfold toInt64
    omega
  unfold atoi
  simp [f3, f4, hL, h64]

theorem takeWhile_digits (ds : List (Fin 10)) (c : Char) (tail : List Char)
    (hc : (decide ('0' ≤ c) && decide (c ≤ '9')) = false) :
    ((ds.map fun d => digitChar d.val) ++ c :: tail).takeWhile
        (fun c => decide ('0' ≤ c) && decide (c ≤ '9'))
      = ds.map fun d => digitChar d.val := by
  induction ds with
  | nil => simp [List.takeWhile, hc]
  | cons d ds ih =>
    obtain ⟨-, -, -, -, -, -, f7⟩ := digitChar_facts d.val d.isLt
    rw [List.map_cons, List.cons_append, List.takeWhile_cons, if_pos f7, ih]

theorem fracNanos_lt (ds : List (Fin 10)) : 0 ≤ fracNanos ds ∧ fracNanos ds < 1000000000 := by
  unfold fracNanos
  have hv := digitsValue_lt (ds.take 9) 0
  rw [Nat.zero_add, Nat.one_mul] at hv
  have hlen : (ds.take 9).length ≤ 9 := by simp
  have hp : 10 ^ (ds.take 9).length * 10 ^ (9 - (ds.take 9).length) = 10 ^ 9 := by
    rw [← Nat.pow_add]; congr 1; omega
  have hpos : 0 < 10 ^ (9 - (ds.take 9).length) := Nat.pow_pos (by norm_num)
  have h1 : (digitsValue (ds.take 9) 0 + 1) * 10 ^ (9 - (ds.take 9).length) ≤ 10 ^ 9 := by
    rw [← hp]; exact Nat.mul_le_mul_right _ hv
  have h2 : digitsValue (ds.take 9) 0 * 10 ^ (9 - (ds.take 9).length) < 10 ^ 9 := by
    rw [Nat.add_mul, Nat.one_mul] at h1; omega
  have h3 : (10 : Nat) ^ 9 = 1000000000 := by norm_num
  rw [h3] at h2
  constructor
  · exact Int.natCast_nonneg _
  · exact_mod_cast h2

/-- The fraction `parseNanoseconds` reads from a period and its digits: the
first nine digits, scaled to nanoseconds. -/
theorem parseNanoseconds_frac (d : Fin 10) (ds : List (Fin 10)) (tail : List Char) :
    parseNanoseconds ('.' :: ((d :: ds).map fun d => digitChar d.val) ++ tail) (2 + ds.length)
      = .ok (fracNanos (d :: ds)) := by
  have key := atoi_digits d (ds.take 8) (by
    rw [List.length_cons, List.length_take]; omega)
  have hnn : ¬ ((digitsValue (d :: ds.take 8) 0 : Nat) : Int) < 0 := by omega
  have hfrac : fracNanos (d :: ds)
      = ((digitsValue (d :: ds.take 8) 0 : Nat) : Int) * 10 ^ (8 - (ds.take 8).length) := by
    unfold fracNanos
    rw [List.take_succ_cons, List.length_cons]
    have : 9 - ((ds.take 8).length + 1) = 8 - (ds.take 8).length := by omega
    rw [this]
    push_cast
    rfl
  unfold parseNanoseconds
  have h0 : commaOrPeriod (('.' :: ((d :: ds).map fun d => digitChar d.val) ++ tail).getD 0 ' ')
      = true := by rfl
  rw [h0]
  simp only [Bool.not_true, Bool.false_eq_true, if_false]
  by_cases hn : 2 + ds.length > 10
  · rw [if_pos hn]
    simp only
    have harg : List.drop 1 (List.take 10 (List.take 10
        ('.' :: List.map (fun d => digitChar d.val) (d :: ds) ++ tail)))
        = List.map (fun d => digitChar d.val) (d :: ds.take 8) := by
      have hl : 8 ≤ (List.map (fun d : Fin 10 => digitChar d.val) ds).length := by
        rw [List.length_map]; omega
      simp only [List.take_take, min_self, List.cons_append, List.map_cons, List.take_succ_cons,
        List.drop_succ_cons, List.drop_zero, List.take_append_of_le_length hl, List.map_take]
    rw [harg, key]
    simp only
    rw [if_neg hnn, hfrac]
    have : (ds.take 8).length = 8 := by rw [List.length_take]; omega
    rw [this]
  · rw [if_neg hn]
    simp only
    have harg : List.drop 1 (List.take (2 + ds.length)
        ('.' :: List.map (fun d => digitChar d.val) (d :: ds) ++ tail))
        = List.map (fun d => digitChar d.val) (d :: ds.take 8) := by
      have h8 : ds.take 8 = ds := List.take_of_length_le (by omega)
      have e2 : 2 + ds.length = (ds.length + 1) + 1 := by omega
      have hl : ds.length + 1 ≤ (List.map (fun d : Fin 10 => digitChar d.val) (d :: ds)).length := by
        rw [List.length_map, List.length_cons]
      rw [h8, e2, List.cons_append, List.take_succ_cons, List.drop_succ_cons, List.drop_zero,
        List.take_append_of_le_length hl]
      exact List.take_of_length_le (by rw [List.length_map, List.length_cons])
    rw [harg, key]
    simp only
    rw [if_neg hnn, hfrac]
    have h8 : ds.take 8 = ds := List.take_of_length_le (by omega)
    rw [h8]
    have : 10 - (2 + ds.length) = 8 - ds.length := by omega
    rw [this]

theorem Zone.text_head (z : Zone) :
    ∃ c tail, z.text = c :: tail ∧ (decide ('0' ≤ c) && decide (c ≤ '9')) = false ∧ c ≠ '.' := by
  cases z
  · exact ⟨'Z', [], rfl, by decide, by decide⟩
  · exact ⟨'+', _, rfl, by decide, by decide⟩
  · exact ⟨'-', _, rfl, by decide, by decide⟩

/-- What `parseRFC3339` finds after the seconds of a text that continues with an
optional fraction and a zone: without a fraction the test for one fails; with
one the digits are read as nanoseconds and the zone is what remains. -/
theorem fraction_split (frac : List (Fin 10)) (z : Zone) (rest : List Char)
    (hrest : fracText frac ++ z.text = rest) :
    ((decide (rest.length ≥ 2) && rest.getD 0 ' ' == '.' && isDigit rest 1) = false ∧
      fracNanos frac = 0 ∧ rest = z.text) ∨
    ((decide (rest.length ≥ 2) && rest.getD 0 ' ' == '.' && isDigit rest 1) = true ∧
      parseNanoseconds rest (digitRun rest 2) = .ok (fracNanos frac) ∧
      List.drop (digitRun rest 2) rest = z.text) := by
  obtain ⟨c, tail, hz, hc, hdot⟩ := z.text_head
  subst hrest
  cases frac with
  | nil =>
    left
    have hcond : ((fracText [] ++ z.text).getD 0 ' ' == '.') = false := by
      rw [hz]
      simp [fracText, hdot]
    rw [hcond]
    simp only [Bool.and_false, Bool.false_and, true_and]
    exact ⟨rfl, rfl⟩
  | cons d ds =>
    right
    obtain ⟨-, -, -, -, -, -, f7⟩ := digitChar_facts d.val d.isLt
    have hrun : digitRun (fracText (d :: ds) ++ z.text) 2 = 2 + ds.length := by
      unfold digitRun
      rw [hz]
      simp only [fracText, List.map_cons, List.cons_append, List.drop_succ_cons, List.drop_zero]
      rw [takeWhile_digits ds c tail hc, List.length_map]
    have hdrop : List.drop (2 + ds.length) (fracText (d :: ds) ++ z.text) = z.text := by
      have e2 : 2 + ds.length = (ds.length + 1) + 1 := by omega
      rw [e2]
      simp only [fracText, List.map_cons, List.cons_append, List.drop_succ_cons]
      have hl : ds.length = (List.map (fun d : Fin 10 => digitChar d.val) ds).length := by
        rw [List.length_map]
      rw [hl, List.drop_left]
    have hcond : (decide ((fracText (d :: ds) ++ z.text).length ≥ 2)
        && (fracText (d :: ds) ++ z.text).getD 0 ' ' == '.'
        && isDigit (fracText (d :: ds) ++ z.text) 1) = true := by
      simp [fracText, isDigit, f7]
    rw [hrun, hdrop]
    exact ⟨hcond, parseNanoseconds_frac d ds z.text, rfl⟩

/-- Away from the ends of the internal counter `addSec` adds to the Unix
seconds. -/
theorem addSec_eq (t : Time) (d : Int) (h0 : -1000000000000 ≤ t.unix)
    (h1 : t.unix ≤ 1000000000000) (h2 : -1000000 ≤ d) (h3 : d ≤ 1000000) :
    t.addSec d = { t with unix := t.unix + d } := by
  have e1 : toInt64 (t.unix + unixToInternal) = t.unix + 62135596800 := by
    unfold unixToInternal toInt64; omega
  have e2 : toInt64 (t.unix + 62135596800 + d) = t.unix + 62135596800 + d := by
    unfold toInt64; omega
  have e3 : toInt64 (t.unix + 62135596800 + d + internalToUnix) = t.unix + d := by
    unfold internalToUnix unixToInternal toInt64; omega
  unfold Time.addSec
  simp only [e1, e2]
  have hc : (decide (t.unix + 62135596800 + d > t.unix + 62135596800) == decide (d > 0)) = true := by
    by_cases hd : d > 0
    · have : t.unix + 62135596800 + d > t.unix + 62135596800 := by omega
      simp [hd, this]
    · have : ¬ t.unix + 62135596800 + d > t.unix + 62135596800 := by omega
      simp [hd, this]
  rw [if_pos hc, e3]

/-- The time `Date` builds from a valid date and time of day is the instant
`unixSeconds` counts, with the nanoseconds given. -/
theorem Date_unixSeconds (y m d h mi s ns : Nat) (hy : y ≤ 9999) (hm1 : 1 ≤ m) (hm2 : m ≤ 12)
    (hd1 : 1 ≤ d) (hd2 : (d : Int) ≤ daysIn m y) (hh : h ≤ 23) (hmi : mi ≤ 59) (hs : s ≤ 59)
    (hns : ns < 1000000000) :
    Date y m d h mi s ns = ⟨unixSeconds y m d h mi s, ns, 0⟩ ∧
    -62167219200 ≤ unixSeconds y m d h mi s ∧ unixSeconds y m d h mi s < 253402387200 := by
  have hd2' := hd2
  rw [daysIn_eq m y hm1 hm2] at hd2'
  have hd3 : d ≤ daysInNat (isLeap y) m := by exact_mod_cast hd2'
  have hd31 : d ≤ 31 := le_trans hd3 (daysInNat_le _ _ hm1 hm2)
  obtain ⟨hmd, hyd⟩ := monthDay_ydayOf (isLeap y) ⟨m, by omega⟩ ⟨d, by omega⟩ hm1 hd1 hd3
  simp only at hyd
  have hE := daysSinceEpoch_spec y hy
  obtain ⟨hl, hu⟩ := daysSinceEpoch_bound y (by omega) (by omega)
  have hU : unixSeconds y m d h mi s
      = ((daysSinceEpoch y + ydayOf (isLeap y) m d) * 86400 + (h * 3600 + mi * 60 + s) : Nat)
        - 9223372028715321600 := by
    rw [hE]
    unfold unixSeconds
    push_cast
    ring
  rw [Date_eq y m d h mi s ns hy hm1 hm2 hd1 hd31 hh hmi hs hns, hU]
  refine ⟨rfl, ?_, ?_⟩
  · omega
  · have hyd2 : ydayOf (isLeap y) m d ≤ 365 := by split_ifs at hyd <;> omega
    omega

set_option maxHeartbeats 1000000 in
/-- The strict parser on a date and time of day, an optional fraction and a
zone: the time of that instant, with the fraction as nanoseconds and the
offset of the zone. -/
theorem parseRFC3339_rfc3339Text (y m d h mi s : Nat) (frac : List (Fin 10)) (z : Zone)
    (hy : y ≤ 9999) (hm1 : 1 ≤ m) (hm2 : m ≤ 12) (hd1 : 1 ≤ d) (hd2 : (d : Int) ≤ daysIn m y)
    (hh : h ≤ 23) (hmi : mi ≤ 59) (hs : s ≤ 59) (hz : z.Valid) :
    parseRFC3339 (dateTimeText y m d h mi s ++ fracText frac ++ z.text)
      = some ⟨unixSeconds y m d h mi s - z.offset, fracNanos frac, z.offset⟩ := by
  have hd3 : d < 100 := by
    have : daysIn m y ≤ 31 := by
      unfold daysIn; split
      · omega
      · interval_cases m <;> simp [daysBefore]
    omega
  have e1 := parseUint_pad4 y 0 9999 (by omega) (by omega) (by omega)
  have e2 := parseUint_pad2 m 1 12 (by omega) (by omega) (by omega)
  have e3 := parseUint_pad2 d 1 (daysIn m y) hd3 (by omega) hd2
  have e4 := parseUint_pad2 h 0 23 (by omega) (by omega) (by omega)
  have e5 := parseUint_pad2 mi 0 59 (by omega) (by omega) (by omega)
  have e6 := parseUint_pad2 s 0 59 (by omega) (by omega) (by omega)
  unfold pad4 at e1
  unfold pad2 at e2 e3 e4 e5 e6
  obtain ⟨hn0, hn1⟩ := fracNanos_lt frac
  obtain ⟨n, hn⟩ : ∃ n : Nat, fracNanos frac = n := ⟨(fracNanos frac).toNat, by omega⟩
  obtain ⟨hD, hU0, hU1⟩ := Date_unixSeconds y m d h mi s n hy hm1 hm2 hd1 hd2 hh hmi hs (by omega)
  rw [← hn] at hD
  rw [List.append_assoc]
  generalize hrest : fracText frac ++ z.text = rest
  have hlen : ¬ rest.length + 1 + 1 + 1 + 1 + 1 + 1 + 1 + 1 + 1 + 1 + 1 + 1 + 1 + 1 + 1 + 1 + 1
      + 1 + 1 < 19 := by omega
  unfold parseRFC3339
  simp only [dateTimeText, pad4, pad2, List.cons_append, List.nil_append, List.length_cons,
    List.take_succ_cons, List.take_zero, List.drop_succ_cons, List.drop_zero, List.getD_cons_succ,
    List.getD_cons_zero, e1, e2, e3, e4, e5, e6]
  rw [if_neg hlen]
  have hsep : (!('-' == '-' && '-' == '-' && 'T' == 'T' && ':' == ':' && ':' == ':')) = false := by
    decide
  rw [hsep]
  simp only [Bool.false_eq_true, if_false]
  rcases fraction_split frac z rest hrest with ⟨hc, h0, hr⟩ | ⟨hc, hp, hr⟩
  on_goal 1 =>
    rw [h0] at hD ⊢
    simp only [hc, Bool.false_eq_true, if_false, hD]
    rw [hr]
  on_goal 2 =>
    simp only [hc, if_true, hp, hr, hD]
  all_goals
    cases z with
    | utc => simp [Zone.text, Zone.offset]
    | east zh zm =>
      obtain ⟨hz1, hz2⟩ := hz
      have z1 := parseUint_pad2 zh 0 23 (by omega) (by omega) (by omega)
      have z2 := parseUint_pad2 zm 0 59 (by omega) (by omega) (by omega)
      unfold pad2 at z1 z2
      have hadd : ∀ N : Int, (Time.mk (unixSeconds y m d h mi s) N 0).addSec
          (-(((zh : Int) * 60 + zm) * 60))
          = ⟨unixSeconds y m d h mi s + -(((zh : Int) * 60 + zm) * 60), N, 0⟩ :=
        fun N => addSec_eq _ _ (by simp only; omega) (by simp only; omega) (by omega) (by omega)
      simp [Zone.text, Zone.offset, pad2, z1, z2, hadd]
      omega
    | west zh zm =>
      obtain ⟨hz1, hz2⟩ := hz
      have z1 := parseUint_pad2 zh 0 23 (by omega) (by omega) (by omega)
      have z2 := parseUint_pad2 zm 0 59 (by omega) (by omega) (by omega)
      unfold pad2 at z1 z2
      have hadd : ∀ N : Int, (Time.mk (unixSeconds y m d h mi s) N 0).addSec
          (((zh : Int) * 60 + zm) * 60)
          = ⟨unixSeconds y m d h mi s + ((zh : Int) * 60 + zm) * 60, N, 0⟩ :=
        fun N => addSec_eq _ _ (by simp only; omega) (by simp only; omega) (by omega) (by omega)
      simp [Zone.text, Zone.offset, pad2, z1, z2, hadd]

theorem rfc3339Text_utc (y m d h mi s : Nat) :
    rfc3339Text y m d h mi s [] Zone.utc = rfc3339UTC y m d h mi s := by
  simp [rfc3339Text, rfc3339UTC, utcText, dateTimeText, fracText, Zone.text]

/-- The wire timestamp of a strict RFC 3339 text: the instant of its date and
time of day moved by its offset, and its fraction as nanoseconds. -/
theorem parseTimestamp_rfc3339Text (y m d h mi s : Nat) (frac : List (Fin 10)) (z : Zone)
    (hy : y ≤ 9999) (hm1 : 1 ≤ m) (hm2 : m ≤ 12) (hd1 : 1 ≤ d) (hd2 : (d : Int) ≤ daysIn m y)
    (hh : h ≤ 23) (hmi : mi ≤ 59) (hs : s ≤ 59) (hz : z.Valid) :
    parseTimestamp (rfc3339Text y m d h mi s frac z)
      = .ok ⟨unixSeconds y m d h mi s - z.offset, fracNanos frac⟩ := by
  have hP := parseRFC3339_rfc3339Text y m d h mi s frac z hy hm1 hm2 hd1 hd2 hh hmi hs hz
  obtain ⟨hn0, hn1⟩ := fracNanos_lt frac
  obtain ⟨_, hU0, hU1⟩ := Date_unixSeconds y m d h mi s 0 hy hm1 hm2 hd1 hd2 hh hmi hs (by omega)
  have hoff : -86400 < z.offset ∧ z.offset < 86400 := by
    cases z with
    | utc => exact ⟨by decide, by decide⟩
    | east zh zm =>
      obtain ⟨hz1, hz2⟩ := hz
      simp only [Zone.offset]
      constructor <;> omega
    | west zh zm =>
      obtain ⟨hz1, hz2⟩ := hz
      simp only [Zone.offset]
      constructor <;> omega
  unfold parseTimestamp
  show (match Parse (dateTimeText y m d h mi s ++ fracText frac ++ z.text) with
    | .error err => Except.error (GoError.wrap "invalid timestamp format: " (.parse err) "")
    | .ok t => .ok (Timestamp.New t)) = _
  unfold Parse
  rw [hP]
  show Except.ok (Timestamp.mk (toInt64 (unixSeconds y m d h mi s - z.offset))
    (toInt32 (fracNanos frac))) = _
  rw [toInt64_eq _ (by omega) (by omega), toInt32_eq _ (by omega) (by omega)]

/-- Formatting the instant of a valid date and time of day in UTC gives the
text of these fields, whatever the nanoseconds are. -/
theorem formatTimestamp_unixSeconds (y m d h mi s : Nat) (N : Int)
    (hy : y ≤ 9999) (hm1 : 1 ≤ m) (hm2 : m ≤ 12) (hd1 : 1 ≤ d) (hd2 : (d : Int) ≤ daysIn m y)
    (hh : h ≤ 23) (hmi : mi ≤ 59) (hs : s ≤ 59) (hN0 : 0 ≤ N) (hN1 : N < 1000000000) :
    formatTimestamp (some ⟨unixSeconds y m d h mi s, N⟩) = rfc3339UTC y m d h mi s := by
  obtain ⟨n, hn⟩ : ∃ n : Nat, N = n := ⟨N.toNat, by omega⟩
  subst hn
  obtain ⟨hF, _⟩ := Format_Date y m d h mi s n hy hm1 hm2 hd1 hd2 hh hmi hs (by omega)
  obtain ⟨hD, hU0, hU1⟩ := Date_unixSeconds y m d h mi s n hy hm1 hm2 hd1 hd2 hh hmi hs (by omega)
  rw [hD] at hF
  have hnew : Timestamp.New ⟨unixSeconds y m d h mi s, (n : Int), 0⟩
      = ⟨unixSeconds y m d h mi s, (n : Int)⟩ := by
    show Timestamp.mk (toInt64 (unixSeconds y m d h mi s)) (toInt32 (n : Int)) = _
    rw [toInt64_eq _ (by omega) (by omega), toInt32_eq _ (by omega) (by omega)]
  rw [hnew] at hF
  show String.mk (Timestamp.AsTime ⟨unixSeconds y m d h mi s, (n : Int)⟩).Format = _
  rw [hF]
  rfl

/-- Every second of the years 0000 to 9999 is the instant of a valid date and
time of day in UTC; `formatTimestamp` renders its text, and `parseTimestamp`
maps that text to the second with zero nanoseconds. -/
theorem formatTimestamp_instant (S N : Int) (hS0 : -62167219200 ≤ S) (hS1 : S ≤ 253402300799)
    (hN0 : 0 ≤ N) (hN1 : N < 1000000000) :
    ∃ y m d h mi s : Nat, y ≤ 9999 ∧ 1 ≤ m ∧ m ≤ 12 ∧ 1 ≤ d ∧ (d : Int) ≤ daysIn m y ∧
      h ≤ 23 ∧ mi ≤ 59 ∧ s ≤ 59 ∧
      unixSeconds y m d h mi s = S ∧
      formatTimestamp (some ⟨S, N⟩) = rfc3339UTC y m d h mi s ∧
      parseTimestamp (rfc3339UTC y m d h mi s) = .ok ⟨S, 0⟩ := by
  obtain ⟨y, m, d, h, mi, s, hy, hm1, hm2, hd1, hd2, hh, hmi, hs, hF, hP⟩ :=
    Parse_Format S N hS0 hS1 hN0 hN1
  have hfmt : formatTimestamp (some ⟨S, N⟩) = rfc3339UTC y m d h mi s := by
    show String.mk (Timestamp.AsTime ⟨S, N⟩).Format = String.mk (utcText y m d h mi s)
    rw [hF]
  have hback : parseTimestamp (rfc3339UTC y m d h mi s) = .ok ⟨S, 0⟩ := by
    unfold parseTimestamp
    show (match Parse (utcText y m d h mi s) with
      | .error err => Except.error (GoError.wrap "invalid timestamp format: " (.parse err) "")
      | .ok t => .ok (Timestamp.New t)) = _
    rw [hP]
    show Except.ok (Timestamp.mk (toInt64 S) (toInt32 0)) = _
    rw [toInt64_eq _ (by omega) (by omega)]
    rfl
  have hS : unixSeconds y m d h mi s = S := by
    have h2 := (round_trip_rfc3339UTC y m d h mi s hy hm1 hm2 hd1 hd2 hh hmi hs).1
    rw [hback] at h2
    simp only [Except.ok.injEq, Timestamp.mk.injEq, and_true] at h2
    exact h2.symm
  exact ⟨y, m, d, h, mi, s, hy, hm1, hm2, hd1, hd2, hh, hmi, hs, hS, hfmt, hback⟩

/-! ### The timestamp codec (`parseTimestamp`, `formatTimestamp`) -/

/-- C3 (the claim as stated fails): the accepted text
`2024-01-01T00:00:00.5Z` is already written in UTC, its half second reaches
the wire timestamp, and `formatTimestamp` renders `2024-01-01T00:00:00Z`:
the fractional second is lost and the result differs from the text. -/
theorem C3_fractional_second_lost :
    parseTimestamp "2024-01-01T00:00:00.5Z" = .ok ⟨1704067200, 500000000⟩ ∧
    formatTimestamp (some ⟨1704067200, 500000000⟩) = "2024-01-01T00:00:00Z" ∧
    formatTimestamp (some ⟨1704067200, 500000000⟩) ≠ "2024-01-01T00:00:00.5Z" := by
  refine ⟨by rfl, by rfl, by decide⟩

set_option maxRecDepth 100000 in
/-- At the edge of the four-digit years an offset moves the instant out of
the years the layout can express: the accepted text
`0000-01-01T00:00:00+01:00` is rendered as `-0001-12-31T23:00:00Z`, which the
parser rejects. -/
theorem round_trip_outside_four_digit_years :
    parseTimestamp "0000-01-01T00:00:00+01:00" = .ok ⟨-62167222800, 0⟩ ∧
    formatTimestamp (some ⟨-62167222800, 0⟩) = "-0001-12-31T23:00:00Z" ∧
    parseTimestamp "-0001-12-31T23:00:00Z"
      = .error (.wrap "invalid timestamp format: " (.parse .bad) "") := by
  refine ⟨by rfl, by rfl, by rfl⟩

/-- For every text `t` that `parseTimestamp` accepts, with wire timestamp `ts`
whose second lies within the years 0000 to 9999 in UTC, `formatTimestamp ts`
is the text `YYYY-MM-DDTHH:MM:SSZ` of the valid date and time of day in UTC
whose instant is the second of `ts`, and `parseTimestamp` maps that text to
the same second with zero nanoseconds. -/
theorem round_trip_to_the_second (t : String) (ts : Timestamp)
    (hparse : parseTimestamp t = .ok ts)
    (hlo : -62167219200 ≤ ts.Seconds) (hhi : ts.Seconds ≤ 253402300799) :
    ∃ y m d h mi s : Nat, y ≤ 9999 ∧ 1 ≤ m ∧ m ≤ 12 ∧ 1 ≤ d ∧ (d : Int) ≤ daysIn m y ∧
      h ≤ 23 ∧ mi ≤ 59 ∧ s ≤ 59 ∧
      ts.Seconds = unixSeconds y m d h mi s ∧
      formatTimestamp (some ts) = rfc3339UTC y m d h mi s ∧
      parseTimestamp (formatTimestamp (some ts)) = .ok ⟨ts.Seconds, 0⟩ := by
  -- the nanoseconds of a parsed time lie in `[0, 10^9)`
  have hN : 0 ≤ ts.Nanos ∧ ts.Nanos < 1000000000 := by
    unfold parseTimestamp at hparse
    split at hparse
    · exact Except.noConfusion hparse
    · rename_i tm htm
      simp only [Except.ok.injEq] at hparse
      obtain ⟨h0, h1⟩ := Parse_nsec _ _ htm
      rw [← hparse]
      show 0 ≤ toInt32 tm.nsec ∧ toInt32 tm.nsec < 1000000000
      rw [toInt32_eq _ (by omega) (by omega)]
      exact ⟨h0, h1⟩
  obtain ⟨S, N⟩ := ts
  simp only at hlo hhi hN
  obtain ⟨y, m, d, h, mi, s, hy, hm1, hm2, hd1, hd2, hh, hmi, hs, hS, hfmt, hback⟩ :=
    formatTimestamp_instant S N hlo hhi hN.1 hN.2
  refine ⟨y, m, d, h, mi, s, hy, hm1, hm2, hd1, hd2, hh, hmi, hs, hS.symm, hfmt, ?_⟩
  rw [hfmt]
  exact hback

/-- C3 (amended): let `t` be the strict RFC 3339 text of a valid calendar date
of the years 0000 to 9999, a time of day with hour 00 to 23, minute 00 to 59
and second 00 to 59, any digits of a fractional second (or none) and any
offset `Z`, `+hh:mm` or `-hh:mm` with `hh` at most 23 and `mm` at most 59.
Then `parseTimestamp t` succeeds with the wire timestamp of the instant of
`t`: the seconds of the date and time of day minus the offset, and the first
nine digits of the fraction as nanoseconds. `formatTimestamp` of that wire
timestamp is `t` normalised to UTC and cut to the whole second: for every
valid date and time of day in UTC that denotes the same second it is the text
of these fields with the designator `Z` and no fraction. Where that second
lies within the years 0000 to 9999 in UTC there is such a date and time of
day, and `parseTimestamp` maps the text returned to the same second with zero
nanoseconds. -/
theorem C3_round_trip_normalised (y m d h mi s : Nat) (frac : List (Fin 10)) (z : Zone)
    (hy : y ≤ 9999) (hm1 : 1 ≤ m) (hm2 : m ≤ 12) (hd1 : 1 ≤ d) (hd2 : (d : Int) ≤ daysIn m y)
    (hh : h ≤ 23) (hmi : mi ≤ 59) (hs : s ≤ 59) (hz : z.Valid) :
    parseTimestamp (rfc3339Text y m d h mi s frac z)
      = .ok ⟨unixSeconds y m d h mi s - z.offset, fracNanos frac⟩ ∧
    (∀ y' m' d' h' mi' s' : Nat, y' ≤ 9999 → 1 ≤ m' → m' ≤ 12 → 1 ≤ d' →
      (d' : Int) ≤ daysIn m' y' → h' ≤ 23 → mi' ≤ 59 → s' ≤ 59 →
      unixSeconds y' m' d' h' mi' s' = unixSeconds y m d h mi s - z.offset →
      formatTimestamp (some ⟨unixSeconds y m d h mi s - z.offset, fracNanos frac⟩)
        = rfc3339Text y' m' d' h' mi' s' [] Zone.utc) ∧
    (-62167219200 ≤ unixSeconds y m d h mi s - z.offset →
      unixSeconds y m d h mi s - z.offset ≤ 253402300799 →
      ∃ y' m' d' h' mi' s' : Nat, y' ≤ 9999 ∧ 1 ≤ m' ∧ m' ≤ 12 ∧ 1 ≤ d' ∧
        (d' : Int) ≤ daysIn m' y' ∧ h' ≤ 23 ∧ mi' ≤ 59 ∧ s' ≤ 59 ∧
        unixSeconds y' m' d' h' mi' s' = unixSeconds y m d h mi s - z.offset ∧
        formatTimestamp (some ⟨unixSeconds y m d h mi s - z.offset, fracNanos frac⟩)
          = rfc3339Text y' m' d' h' mi' s' [] Zone.utc ∧
        parseTimestamp (rfc3339Text y' m' d' h' mi' s' [] Zone.utc)
          = .ok ⟨unixSeconds y m d h mi s - z.offset, 0⟩) := by
  obtain ⟨hn0, hn1⟩ := fracNanos_lt frac
  refine ⟨parseTimestamp_rfc3339Text y m d h mi s frac z hy hm1 hm2 hd1 hd2 hh hmi hs hz, ?_, ?_⟩
  · intro y' m' d' h' mi' s' hy' hm1' hm2' hd1' hd2' hh' hmi' hs' hU
    rw [← hU, rfc3339Text_utc]
    exact formatTimestamp_unixSeconds y' m' d' h' mi' s' _ hy' hm1' hm2' hd1' hd2' hh' hmi' hs'
      hn0 hn1
  · intro hlo hhi
    obtain ⟨y', m', d', h', mi', s', hy', hm1', hm2', hd1', hd2', hh', hmi', hs', hU, hF, hB⟩ :=
      formatTimestamp_instant _ (fracNanos frac) hlo hhi hn0 hn1
    refine ⟨y', m', d', h', mi', s', hy', hm1', hm2', hd1', hd2', hh', hmi', hs', hU, ?_, ?_⟩
    · rw [rfc3339Text_utc]; exact hF
    · rw [rfc3339Text_utc]; exact hB

set_option maxRecDepth 100000 in
/-- C3 (amended) on `2024-01-01T09:00:00.5+09:00` and on
`2023-12-31T19:00:00.25-05:00`: both denote second 1704067200, keep their
fraction on the wire and come back as `2024-01-01T00:00:00Z`. -/
theorem C3_round_trip_normalised_witness :
    (parseTimestamp "2024-01-01T09:00:00.5+09:00" = .ok ⟨1704067200, 500000000⟩ ∧
      formatTimestamp (some ⟨1704067200, 500000000⟩) = "2024-01-01T00:00:00Z") ∧
    (parseTimestamp "2023-12-31T19:00:00.25-05:00" = .ok ⟨1704067200, 250000000⟩ ∧
      formatTimestamp (some ⟨1704067200, 250000000⟩) = "2024-01-01T00:00:00Z") := by
  have a := C3_round_trip_normalised 2024 1 1 9 0 0 [5] (Zone.east 9 0) (by decide) (by decide)
    (by decide) (by decide) (by decide) (by decide) (by decide) (by decide)
    ⟨by decide, by decide⟩
  have b := C3_round_trip_normalised 2023 12 31 19 0 0 [2, 5] (Zone.west 5 0) (by decide)
    (by decide) (by decide) (by decide) (by decide) (by decide) (by decide) (by decide)
    ⟨by decide, by decide⟩
  have a1 : rfc3339Text 2024 1 1 9 0 0 [5] (Zone.east 9 0) = "2024-01-01T09:00:00.5+09:00" := by
    decide
  have a2 : unixSeconds 2024 1 1 9 0 0 - (Zone.east 9 0).offset = 1704067200 := by decide
  have a3 : fracNanos [5] = 500000000 := by decide
  have b1 : rfc3339Text 2023 12 31 19 0 0 [2, 5] (Zone.west 5 0)
      = "2023-12-31T19:00:00.25-05:00" := by decide
  have b2 : unixSeconds 2023 12 31 19 0 0 - (Zone.west 5 0).offset = 1704067200 := by decide
  have b3 : fracNanos [2, 5] = 250000000 := by decide
  have c1 : rfc3339Text 2024 1 1 0 0 0 [] Zone.utc = "2024-01-01T00:00:00Z" := by decide
  have c2 : unixSeconds 2024 1 1 0 0 0 = 1704067200 := by decide
  rw [a1, a2, a3] at a
  rw [b1, b2, b3] at b
  refine ⟨⟨a.1, ?_⟩, ⟨b.1, ?_⟩⟩
  · have h := a.2.1 2024 1 1 0 0 0 (by decide) (by decide) (by decide) (by decide) (by decide)
      (by decide) (by decide) (by decide) c2
    rw [c1] at h
    exact h
  · have h := b.2.1 2024 1 1 0 0 0 (by decide) (by decide) (by decide) (by decide) (by decide)
      (by decide) (by decide) (by decide) c2
    rw [c1] at h
    exact h

/-- C4 (the claim as stated fails): the RFC 3339 text of a leap second,
`1990-12-31T23:59:60Z`, is written in UTC with `Z` and whole seconds, and
`parseTimestamp` rejects it (second out of range). -/
theorem C4_leap_second_rejected :
    parseTimestamp "1990-12-31T23:59:60Z"
      = .error (.wrap "invalid timestamp format: " (.parse (.outOfRange "second")) "") := by
  rfl

/-- C4 (amended): for every text `YYYY-MM-DDTHH:MM:SSZ` of a valid calendar
date of the years 0000 to 9999 and a time of day with hour 00 to 23, minute
00 to 59 and second 00 to 59, `parseTimestamp` succeeds with the wire
timestamp of that instant (its seconds from 1970-01-01T00:00:00Z, zero
nanoseconds), and `formatTimestamp` of that wire timestamp returns exactly
the text. -/
theorem C4_utc_whole_second_round_trip (y m d h mi s : Nat)
    (hy : y ≤ 9999) (hm1 : 1 ≤ m) (hm2 : m ≤ 12) (hd1 : 1 ≤ d)
    (hd2 : (d : Int) ≤ daysIn m y) (hh : h ≤ 23) (hmi : mi ≤ 59) (hs : s ≤ 59) :
    parseTimestamp (rfc3339UTC y m d h mi s) = .ok ⟨unixSeconds y m d h mi s, 0⟩ ∧
    formatTimestamp (some ⟨unixSeconds y m d h mi s, 0⟩) = rfc3339UTC y m d h mi s :=
  round_trip_rfc3339UTC y m d h mi s hy hm1 hm2 hd1 hd2 hh hmi hs

/-- C4 (amended) on the text of the specification, `2024-01-01T00:00:00Z`,
whose instant is second 1704067200. -/
theorem C4_utc_whole_second_round_trip_witness :
    parseTimestamp "2024-01-01T00:00:00Z" = .ok ⟨1704067200, 0⟩ ∧
    formatTimestamp (some ⟨1704067200, 0⟩) = "2024-01-01T00:00:00Z" := by
  have h := C4_utc_whole_second_round_trip 2024 1 1 0 0 0 (by decide) (by decide)
    (by decide) (by decide) (by decide) (by decide) (by decide) (by decide)
  have e1 : rfc3339UTC 2024 1 1 0 0 0 = "2024-01-01T00:00:00Z" := by decide
  have e2 : unixSeconds 2024 1 1 0 0 0 = 1704067200 := by decide
  rw [e1, e2] at h
  exact h

/-! ### `RESTClient.SendLog` -/

/-- C9: whenever the request is built and sent and the server returns a
response, `RESTClient.SendLog` returns nil exactly when the status code is
200; for every other status code it returns the error
`fmt.Errorf("%w: %s", ErrUnexpectedHTTPStatus, res.Status)`, which wraps
`ErrUnexpectedHTTPStatus` and ends in the status text of the response. -/
theorem C9_SendLog_status (env : HTTPEnv) (c : RESTClient) (log : model.Log)
    (body : String) (req : http.Request) (res : http.Response)
    (hbody : env.Marshal { Log := log } = .ok body)
    (hreq : env.NewRequestWithContext "POST" (c.Endpoint ++ "/api/logs") (some body) = .ok req)
    (hres : env.Do (req.setHeader "Content-Type" "application/json") = .ok res) :
    (c.SendLog env log = .ok () ↔ res.StatusCode = 200) ∧
    (res.StatusCode ≠ 200 →
      c.SendLog env log = .error (.wrap "" ErrUnexpectedHTTPStatus (": " ++ res.Status)) ∧
      (GoError.wrap "" ErrUnexpectedHTTPStatus (": " ++ res.Status)).Is ErrUnexpectedHTTPStatus
        = true ∧
      (GoError.wrap "" ErrUnexpectedHTTPStatus (": " ++ res.Status)).Unwrap
        = some ErrUnexpectedHTTPStatus) := by
  have hrun : c.SendLog env log =
      if res.StatusCode ≠ http.StatusOK then
        .error (.wrap "" ErrUnexpectedHTTPStatus (": " ++ res.Status))
      else .ok () := by
    unfold RESTClient.SendLog
    rw [hbody]
    simp only
    rw [hreq]
    simp only
    rw [hres]
  unfold http.StatusOK at hrun
  constructor
  · by_cases h200 : res.StatusCode = 200
    · rw [hrun, if_neg (not_not.mpr h200)]
      exact ⟨fun _ => h200, fun _ => rfl⟩
    · rw [hrun, if_pos h200]
      exact ⟨fun h => Except.noConfusion h, fun h => absurd h h200⟩
  · intro h200
    refine ⟨by rw [hrun, if_pos h200], ?_, rfl⟩
    simp [GoError.Is, ErrUnexpectedHTTPStatus]

/-- C9 on a server that answers `500 Internal Server Error`. -/
theorem C9_SendLog_status_witness :
    (RESTClient.SendLog
        ⟨fun _ => .ok "body", fun me url b => .ok ⟨me, url, b, []⟩,
          fun _ => .ok ⟨500, "500 Internal Server Error"⟩⟩
        ⟨"http://localhost:8080"⟩ ⟨"1", "", "2024-01-01T00:00:00Z", "", "", "", []⟩ = .ok ()
      ↔ (500 : Int) = 200) ∧
    ((500 : Int) ≠ 200 →
      RESTClient.SendLog
        ⟨fun _ => .ok "body", fun me url b => .ok ⟨me, url, b, []⟩,
          fun _ => .ok ⟨500, "500 Internal Server Error"⟩⟩
        ⟨"http://localhost:8080"⟩ ⟨"1", "", "2024-01-01T00:00:00Z", "", "", "", []⟩
        = .error (.wrap "" ErrUnexpectedHTTPStatus (": " ++ "500 Internal Server Error")) ∧
      (GoError.wrap "" ErrUnexpectedHTTPStatus (": " ++ "500 Internal Server Error")).Is
        ErrUnexpectedHTTPStatus = true ∧
      (GoError.wrap "" ErrUnexpectedHTTPStatus (": " ++ "500 Internal Server Error")).Unwrap
        = some ErrUnexpectedHTTPStatus) :=
  C9_SendLog_status
    ⟨fun _ => .ok "body", fun me url b => .ok ⟨me, url, b, []⟩,
      fun _ => .ok ⟨500, "500 Internal Server Error"⟩⟩
    ⟨"http://localhost:8080"⟩ ⟨"1", "", "2024-01-01T00:00:00Z", "", "", "", []⟩
    "body" ⟨"POST", "http://localhost:8080" ++ "/api/logs", some "body", []⟩
    ⟨500, "500 Internal Server Error"⟩ rfl rfl rfl

/-! ### `GRPCClient.SendLog` -/

/-- C10: for every log record whose timestamp `time.Parse` rejects,
`GRPCClient.SendLog` returns the error
`failed to parse timestamp: invalid timestamp format: <parse error>`, whose
chain reaches the parse error, and hands no request to the remote `SendLog`
operation. -/
theorem C10_SendLog_rejects_bad_timestamp (c : GRPCClient) (log : model.Log)
    (pe : ParseError) (hbad : Parse log.Timestamp.toList = .error pe) :
    c.SendLog log =
      (.error (.wrap "failed to parse timestamp: "
        (.wrap "invalid timestamp format: " (.parse pe) "") ""), []) ∧
    (GoError.wrap "failed to parse timestamp: "
        (.wrap "invalid timestamp format: " (.parse pe) "") "").Is (.parse pe) = true := by
  constructor
  · unfold GRPCClient.SendLog parseTimestamp
    rw [hbad]
  · simp [GoError.Is]

/-- C10 on the empty timestamp, a date without a time and a time without an
offset, with a remote service that would accept any request. -/
theorem C10_SendLog_rejects_bad_timestamp_witness :
    (∀ ts ∈ ["", "2024-01-01", "2024-01-01T00:00:00"],
      GRPCClient.SendLog ⟨⟨fun _ => .ok (), fun _ => .ok ⟨[]⟩⟩⟩ ⟨"1", "", ts, "INFO", "svc", "msg", []⟩ =
        (.error (.wrap "failed to parse timestamp: "
          (.wrap "invalid timestamp format: " (.parse .bad) "") ""), [])) ∧
    (GoError.wrap "failed to parse timestamp: "
        (.wrap "invalid timestamp format: " (.parse .bad) "") "").Is (.parse .bad) = true := by
  refine ⟨?_, (C10_SendLog_rejects_bad_timestamp ⟨⟨fun _ => .ok (), fun _ => .ok ⟨[]⟩⟩⟩
    ⟨"1", "", "", "INFO", "svc", "msg", []⟩ .bad (by rfl)).2⟩
  intro ts hts
  simp only [List.mem_cons, List.mem_singleton, List.not_mem_nil, or_false] at hts
  rcases hts with rfl | rfl | rfl
  · exact (C10_SendLog_rejects_bad_timestamp ⟨⟨fun _ => .ok (), fun _ => .ok ⟨[]⟩⟩⟩
      ⟨"1", "", "", "INFO", "svc", "msg", []⟩ .bad (by rfl)).1
  · exact (C10_SendLog_rejects_bad_timestamp ⟨⟨fun _ => .ok (), fun _ => .ok ⟨[]⟩⟩⟩
      ⟨"1", "", "2024-01-01", "INFO", "svc", "msg", []⟩ .bad (by rfl)).1
  · exact (C10_SendLog_rejects_bad_timestamp ⟨⟨fun _ => .ok (), fun _ => .ok ⟨[]⟩⟩⟩
      ⟨"1", "", "2024-01-01T00:00:00", "INFO", "svc", "msg", []⟩ .bad (by rfl)).1

/-! ### `GRPCClient.GetLogs` -/

/-- C11: whenever the remote `GetLogs` call succeeds with a response,
`GRPCClient.GetLogs` returns, without error, a list as long as the list of
wire records in which position `i` holds the field-by-field image of wire
record `i` (id, traceId, level, service, message and metadata carried over,
timestamp the `formatTimestamp` of the wire timestamp), so the order of the
remote is kept and nothing is filtered or dropped; a nil wire record gives
the zero record, an unset wire timestamp gives the timestamp `""`, and an
empty response gives the empty list. -/
theorem C11_GetLogs_maps_records (c : GRPCClient) (service level : String)
    (limit offset : Int) (resp : pb.GetLogsResponse)
    (hresp : c.client.GetLogs
      { Service := some service, Level := some level, Limit := limit, Offset := offset,
        StartTime := none, EndTime := none } = .ok resp) :
    ∃ logs : List model.Log,
      c.GetLogs service level limit offset = .ok logs ∧
      logs.length = resp.Logs.length ∧
      (∀ (i : Nat) (w : pb.Log), resp.Logs[i]? = some (some w) →
        logs[i]? = some
          { ID := w.Id, TraceID := w.TraceId, Timestamp := formatTimestamp w.Timestamp,
            Level := w.Level, Service := w.Service, Message := w.Message,
            Metadata := w.Metadata }) ∧
      (∀ (i : Nat) (w : pb.Log), resp.Logs[i]? = some (some w) → w.Timestamp = none →
        ∃ l : model.Log, logs[i]? = some l ∧ l.Timestamp = "") ∧
      (∀ i : Nat, resp.Logs[i]? = some none →
        logs[i]? = some
          { ID := "", TraceID := "", Timestamp := "", Level := "", Service := "",
            Message := "", Metadata := [] }) ∧
      (resp.Logs = [] → logs = []) := by
  have hrun : c.GetLogs service level limit offset =
      .ok (resp.Logs.map fun protoLog =>
        { ID := (protoLog.map (·.Id)).getD ""
          TraceID := (protoLog.map (·.TraceId)).getD ""
          Timestamp := formatTimestamp (protoLog.bind (·.Timestamp))
          Level := (protoLog.map (·.Level)).getD ""
          Service := (protoLog.map (·.Service)).getD ""
          Message := (protoLog.map (·.Message)).getD ""
          Metadata := (protoLog.map (·.Metadata)).getD [] }) := by
    unfold GRPCClient.GetLogs StringPtr
    simp only
    rw [hresp]
  refine ⟨_, hrun, List.length_map _ _, ?_, ?_, ?_, ?_⟩
  · intro i w hi
    rw [List.getElem?_map, hi]
    rfl
  · intro i w hi hnil
    refine ⟨_, by rw [List.getElem?_map, hi]; rfl, ?_⟩
    show formatTimestamp w.Timestamp = ""
    rw [hnil]
    rfl
  · intro i hi
    rw [List.getElem?_map, hi]
    rfl
  · intro hempty
    rw [hempty]
    rfl

/-- C11 on a response with a record stamped 2024-01-01T00:00:00Z, a record
without a timestamp and a nil record: the three images come back in that
order. -/
theorem C11_GetLogs_maps_records_witness :
    GRPCClient.GetLogs
        ⟨⟨fun _ => .ok (), fun _ => .ok ⟨[
          some ⟨"1", "t1", some ⟨1704067200, 0⟩, "INFO", "svc", "first", [("env", "dev")]⟩,
          some ⟨"2", "t2", none, "ERROR", "svc", "second", []⟩,
          none]⟩⟩⟩
        "test-service" "INFO" 10 0
      = .ok [
          ⟨"1", "t1", "2024-01-01T00:00:00Z", "INFO", "svc", "first", [("env", "dev")]⟩,
          ⟨"2", "t2", "", "ERROR", "svc", "second", []⟩,
          ⟨"", "", "", "", "", "", []⟩] ∧
    ∃ logs : List model.Log,
      GRPCClient.GetLogs
          ⟨⟨fun _ => .ok (), fun _ => .ok ⟨[
            some ⟨"1", "t1", some ⟨1704067200, 0⟩, "INFO", "svc", "first", [("env", "dev")]⟩,
            some ⟨"2", "t2", none, "ERROR", "svc", "second", []⟩,
            none]⟩⟩⟩
          "test-service" "INFO" 10 0 = .ok logs ∧
      logs.length = 3 :=
  ⟨by rfl,
   (C11_GetLogs_maps_records
      ⟨⟨fun _ => .ok (), fun _ => .ok ⟨[
        some ⟨"1", "t1", some ⟨1704067200, 0⟩, "INFO", "svc", "first", [("env", "dev")]⟩,
        some ⟨"2", "t2", none, "ERROR", "svc", "second", []⟩,
        none]⟩⟩⟩
      "test-service" "INFO" 10 0
      ⟨[some ⟨"1", "t1", some ⟨1704067200, 0⟩, "INFO", "svc", "first", [("env", "dev")]⟩,
        some ⟨"2", "t2", none, "ERROR", "svc", "second", []⟩,
        none]⟩ rfl).imp fun _ h => ⟨h.1, h.2.1⟩⟩

end LogsCollector
